import Mathlib

/-!
# Verification of the audiolivros-server session and verification core

A shallow embedding of the session/verification core of the
`audiolivros-server` backend, together with theorems settling the
specification claims about it.

Embedding conventions, used throughout:

* Machine time (`Date.now()`, parsed ISO timestamps) is modelled as an
  integer count of milliseconds (`Int`).
* The SHA-256 digest (`crypto.createHash('sha256')`) is modelled by the
  injective tagging function `modelHash`; the code relies on the digest only
  for determinism, injectivity-in-practice and irreversibility, and every
  theorem below uses only determinism and injectivity.
* JavaScript `Map` objects are modelled as association lists
  (`List (String × α)`) with the `lookupA`/`setA`/`removeA` operations.
* Asynchronously obtained values (random tokens, random numeric codes,
  timestamps fetched by `utcTimestampPlusMinutes`) are passed to the
  modelled operations as explicit arguments.
* A TypeScript method that can `throw` is modelled as returning the new
  state of its service together with `Except String result`; mutations the
  source performs before throwing are visible in the returned state, as in
  the source.
-/

/-- Model of the SHA-256 digest used by `hashToken` / `createHash('sha256')`
(src/common/utils/token.ts).  The digest is an injective deterministic
function from strings to strings; the tagged identity keeps both
properties while staying executable. -/
def modelHash (s : String) : String := "sha256:" ++ s

theorem modelHash_injective : Function.Injective modelHash := by
  intro a b h
  have hd := congrArg String.data h
  simp only [modelHash, String.data_append] at hd
  exact String.ext (List.append_cancel_left hd)

/-! ## Association lists (the model of JavaScript `Map`) -/

/-- `Map.get`: first value bound to `key`, if any. -/
def lookupA {α : Type} : List (String × α) → String → Option α
  | [], _ => none
  | (k, v) :: rest, key => if k = key then some v else lookupA rest key

/-- Remove every binding of `key` (`Map.delete`). -/
def removeA {α : Type} (key : String) : List (String × α) → List (String × α)
  | [] => []
  | (k, v) :: rest =>
      if k = key then removeA key rest else (k, v) :: removeA key rest

/-- `Map.set`: bind `key` to `v`, superseding any previous binding. -/
def setA {α : Type} (key : String) (v : α) (l : List (String × α)) :
    List (String × α) :=
  (key, v) :: removeA key l

theorem lookupA_removeA_self {α : Type} (key : String) (l : List (String × α)) :
    lookupA (removeA key l) key = none := by
  induction l with
  | nil => rfl
  | cons p rest ih =>
      by_cases h : p.1 = key
      · simpa [removeA, h] using ih
      · simp [removeA, h, lookupA, ih]

theorem lookupA_removeA_ne {α : Type} {key k : String} (h : k ≠ key)
    (l : List (String × α)) :
    lookupA (removeA key l) k = lookupA l k := by
  induction l with
  | nil => rfl
  | cons p rest ih =>
      by_cases hp : p.1 = key
      · have hne : ¬ key = k := fun hk => h hk.symm
        simp [removeA, hp, lookupA, hne, ih]
      · simp [removeA, hp, lookupA, ih]

theorem lookupA_setA_self {α : Type} (key : String) (v : α)
    (l : List (String × α)) : lookupA (setA key v l) key = some v := by
  simp [setA, lookupA]

theorem lookupA_setA_ne {α : Type} {key k : String} (h : k ≠ key) (v : α)
    (l : List (String × α)) : lookupA (setA key v l) k = lookupA l k := by
  have hne : key ≠ k := fun h' => h h'.symm
  simp [setA, lookupA, hne, lookupA_removeA_ne h]

theorem removeA_setA {α : Type} (key : String) (v : α)
    (l : List (String × α)) : removeA key (setA key v l) = removeA key l := by
  induction l with
  | nil => simp [setA, removeA]
  | cons p rest ih =>
      by_cases hp : p.1 = key <;>
        simp_all [setA, removeA]

theorem removeA_removeA {α : Type} (key : String) (l : List (String × α)) :
    removeA key (removeA key l) = removeA key l := by
  induction l with
  | nil => rfl
  | cons p rest ih =>
      by_cases hp : p.1 = key <;> simp [removeA, hp, ih]

theorem setA_setA {α : Type} (key : String) (v w : α)
    (l : List (String × α)) : setA key w (setA key v l) = setA key w l := by
  simp [setA, removeA, removeA_removeA]

/-! ## Duplicate-Request Detector
(src/auth/duplicate-request-detector.service.ts)

The two tables of `DuplicateRequestDetectorService`: `pendingRequests`
(signature → registration timestamp; the promise resolver stored next to
the timestamp has no observable effect on the tables and is omitted) and
`recentRequests` (signature → completion timestamp). -/

/-- The request attributes that `generateRequestSignature` reads.  `body`
and `query` stand for the `JSON.stringify` serialisations the source
computes from `req.body` / `req.query`. -/
structure ReqInfo where
  method : String
  url : String
  body : String
  query : String
  userAgent : String
  ip : String
deriving DecidableEq

/-- State of `DuplicateRequestDetectorService`. -/
structure DupState where
  pending : List (String × Int)
  recent : List (String × Int)
deriving DecidableEq

/-- `duplicateMemoryMs = 45000`: retention window of `recentRequests`. -/
def duplicateMemoryMs : Int := 45000

/-- `generateRequestSignature`: the SHA-256 digest of
`method:url:body:query:token:userAgent:ip`; as with `modelHash`, the
digest is modelled by its (injectively tagged) pre-image. -/
def generateRequestSignature (r : ReqInfo) (token : String) : String :=
  "sha256:" ++ r.method ++ ":" ++ r.url ++ ":" ++ r.body ++ ":" ++ r.query ++
    ":" ++ token ++ ":" ++ r.userAgent ++ ":" ++ r.ip

/-- `checkDuplicateRequest`: true when the signature is pending, or when
`recentRequests` holds a truthy timestamp `lastSeen` (JavaScript `lastSeen &&`,
hence `lastSeen ≠ 0`) with `now - lastSeen < duplicateMemoryMs`. -/
def checkDuplicateRequest (st : DupState) (r : ReqInfo) (token : String)
    (now : Int) : Bool :=
  let signature := generateRequestSignature r token
  if (lookupA st.pending signature).isSome then true
  else
    match lookupA st.recent signature with
    | some lastSeen =>
        if lastSeen ≠ 0 ∧ now - lastSeen < duplicateMemoryMs then true
        else false
    | none => false

/-- `registerRequest`: inserts the signature into `pendingRequests` with
`Date.now()` and returns the cleanup closure, represented by the signature
it captures (see `releaseRequest`). -/
def registerRequest (st : DupState) (r : ReqInfo) (token : String)
    (now : Int) : DupState × String :=
  let signature := generateRequestSignature r token
  ({ st with pending := setA signature now st.pending }, signature)

/-- The cleanup closure returned by `registerRequest`, applied to a state:
if the signature is still pending it resolves and deletes that entry; in
every case it then stamps `recentRequests[signature] = Date.now()`. -/
def releaseRequest (signature : String) (st : DupState) (now : Int) :
    DupState :=
  match lookupA st.pending signature with
  | some _ =>
      { pending := removeA signature st.pending,
        recent := setA signature now st.recent }
  | none =>
      { pending := st.pending, recent := setA signature now st.recent }

theorem releaseRequest_recent (signature : String) (st : DupState)
    (now : Int) :
    (releaseRequest signature st now).recent = setA signature now st.recent := by
  unfold releaseRequest
  cases lookupA st.pending signature <;> rfl

theorem releaseRequest_pending_lookup (signature : String) (st : DupState)
    (now : Int) :
    lookupA (releaseRequest signature st now).pending signature = none := by
  unfold releaseRequest
  cases h : lookupA st.pending signature
  · simpa using h
  · simp [lookupA_removeA_self]

/-- C6: `checkDuplicateRequest` returns true exactly when the request's
fingerprint is in the pending table, or is in the recently-completed table
with a completion timestamp less than 45000 ms in the past.  The
hypothesis records that stored completion stamps are positive
(`Date.now()` values), which is what the source's truthiness test
`lastSeen &&` presumes. -/
theorem checkDuplicateRequest_spec (st : DupState) (r : ReqInfo)
    (token : String) (now : Int)
    (hpos : ∀ s t, lookupA st.recent s = some t → 0 < t) :
    checkDuplicateRequest st r token now = true ↔
      ((lookupA st.pending (generateRequestSignature r token)).isSome ∨
        ∃ t, lookupA st.recent (generateRequestSignature r token) = some t ∧
          now - t < duplicateMemoryMs) := by
  unfold checkDuplicateRequest
  cases hp : (lookupA st.pending (generateRequestSignature r token)).isSome
  · cases hr : lookupA st.recent (generateRequestSignature r token) with
    | none => simp [hp, hr]
    | some lastSeen =>
        have hlt : (0 : Int) < lastSeen := hpos _ _ hr
        have hne : lastSeen ≠ 0 := by omega
        by_cases hw : now - lastSeen < duplicateMemoryMs
        · simp [hp, hr, hne, hw]
        · simp [hp, hr, hne, hw]
  · simp [hp]

theorem checkDuplicateRequest_spec_witness :
    checkDuplicateRequest
        { pending := [(generateRequestSignature
            { method := "POST", url := "/favorites", body := "b", query := "q",
              userAgent := "ua", ip := "ip" } "tok", 3)], recent := [] }
        { method := "POST", url := "/favorites", body := "b", query := "q",
          userAgent := "ua", ip := "ip" } "tok" 10 = true ↔
      ((lookupA [(generateRequestSignature
            { method := "POST", url := "/favorites", body := "b", query := "q",
              userAgent := "ua", ip := "ip" } "tok", 3)]
          (generateRequestSignature
            { method := "POST", url := "/favorites", body := "b", query := "q",
              userAgent := "ua", ip := "ip" } "tok")).isSome ∨
        ∃ t, lookupA ([] : List (String × Int))
            (generateRequestSignature
              { method := "POST", url := "/favorites", body := "b", query := "q",
                userAgent := "ua", ip := "ip" } "tok") = some t ∧
          10 - t < duplicateMemoryMs) :=
  checkDuplicateRequest_spec _ _ _ _ (fun s t h => by simp [lookupA] at h)

/-- A concrete request used to exercise the detector. -/
def dupReqEx : ReqInfo :=
  { method := "POST", url := "/auth/refresh", body := "b", query := "q",
    userAgent := "ua", ip := "ip" }

/-- Register `dupReqEx` at time 0 in an empty detector: new state plus
the signature captured by the returned release closure. -/
def dupRegEx : DupState × String :=
  registerRequest { pending := [], recent := [] } dupReqEx "tok" 0

/-- The detector state after the release closure runs once, at time 10. -/
def dupAfterFirstRelease : DupState := releaseRequest dupRegEx.2 dupRegEx.1 10

/-- C7 counterexample: register a request, release it at time 10, then
invoke the closure again at time 20.  The repeated call is not a no-op:
it re-stamps the recently-completed timestamp from 10 to 20, so the
detector state after the repeated call differs from the state after the
first call. -/
theorem releaseRequest_not_idempotent :
    releaseRequest dupRegEx.2 dupAfterFirstRelease 20 ≠ dupAfterFirstRelease ∧
      lookupA (releaseRequest dupRegEx.2 dupAfterFirstRelease 20).recent
          dupRegEx.2 = some 20 ∧
      lookupA dupAfterFirstRelease.recent dupRegEx.2 = some 10 := by
  decide

/-- C7 amended: a repeated invocation of the release closure never touches
the pending table again (the entry is already gone), but it does re-stamp
`recentRequests[signature]` with the time of the repeated call; it is a
state no-op exactly when that timestamp does not change. -/
theorem releaseRequest_repeat (st : DupState) (signature : String)
    (t1 t2 : Int) :
    releaseRequest signature (releaseRequest signature st t1) t2 =
      { pending := (releaseRequest signature st t1).pending,
        recent := setA signature t2 st.recent } ∧
    (t1 = t2 →
      releaseRequest signature (releaseRequest signature st t1) t2 =
        releaseRequest signature st t1) := by
  have hfst :
      releaseRequest signature (releaseRequest signature st t1) t2 =
        { pending := (releaseRequest signature st t1).pending,
          recent := setA signature t2 st.recent } := by
    unfold releaseRequest
    cases h : lookupA st.pending signature
    · simp only [h]
      simp [h, setA_setA]
    · simp only [h]
      simp [lookupA_removeA_self, setA_setA]
  refine ⟨hfst, fun ht => ?_⟩
  subst ht
  rw [hfst]
  have hrec := releaseRequest_recent signature st t1
  exact congrArg _ hrec.symm

theorem releaseRequest_repeat_witness :
    releaseRequest "s" (releaseRequest "s" { pending := [("s", 0)], recent := [] } 7) 9 =
      { pending := (releaseRequest "s" { pending := [("s", 0)], recent := [] } 7).pending,
        recent := setA "s" 9 ([] : List (String × Int)) } ∧
    ((7 : Int) = 9 →
      releaseRequest "s" (releaseRequest "s" { pending := [("s", 0)], recent := [] } 7) 9 =
        releaseRequest "s" { pending := [("s", 0)], recent := [] } 7) :=
  releaseRequest_repeat { pending := [("s", 0)], recent := [] } "s" 7 9

/-! ## Session token store (the `tokens` table) and `persistTokenRecord`
(src/auth/auth.service.ts) -/

/-- One row of the `tokens` table, with the columns the auth service reads
and writes. -/
structure TokenRow where
  id : String
  userId : String
  tokenHash : String
  provider : Option String
  providerSub : Option String
  issuedAt : Int
  expiresAt : Int
  revokedAt : Option Int
  permission : Bool
deriving DecidableEq

/-- `deleteTokensByUser`: `delete from tokens where user_id = userId`. -/
def deleteTokensByUser (store : List TokenRow) (userId : String) :
    List TokenRow :=
  store.filter (fun row => row.userId != userId)

/-- `deleteTokenByHash`: `delete from tokens where token_hash = h`. -/
def deleteTokenByHash (store : List TokenRow) (h : String) : List TokenRow :=
  store.filter (fun row => row.tokenHash != h)

/-- The body of `scheduleTokenDeletion`, once its timer fires:
`delete from tokens where id = tokenId`. -/
def deleteTokenById (store : List TokenRow) (tokenId : String) :
    List TokenRow :=
  store.filter (fun row => row.id != tokenId)

/-- Result of a `.maybeSingle()` query: zero rows, one row, or an error
(more than one row matches). -/
inductive MaybeSingle where
  | noRow
  | one (row : TokenRow)
  | err
deriving DecidableEq

/-- `select ... from tokens where token_hash = h` followed by
`.maybeSingle()`. -/
def maybeSingleByHash (store : List TokenRow) (h : String) : MaybeSingle :=
  match store.filter (fun row => row.tokenHash == h) with
  | [] => .noRow
  | [row] => .one row
  | _ => .err

/-- The named argument record of `persistTokenRecord`.  `expiresAt` is the
timestamp the source resolves first (the explicit argument, or the value
`utcTimestampPlusMinutes` returned). -/
structure PersistInput where
  tokenHash : String
  userId : String
  provider : Option String
  providerSub : Option String
  permission : Bool
  expiresAt : Int
  consumeTokenHash : Option String
  clearUserTokens : Bool

/-- The row `persistTokenRecord` inserts. -/
def newTokenRow (p : PersistInput) (newId : String) (now : Int) : TokenRow :=
  { id := newId, userId := p.userId, tokenHash := p.tokenHash,
    provider := p.provider, providerSub := p.providerSub, issuedAt := now,
    expiresAt := p.expiresAt, revokedAt := none, permission := p.permission }

/-- `persistTokenRecord`: optionally delete the consumed token row by
hash, optionally delete every row of the user, then insert the new row.
`newId` is the id the store assigns to the inserted row; `now` is
`Date.now()` at the call. -/
def persistTokenRecord (store : List TokenRow) (p : PersistInput)
    (newId : String) (now : Int) : List TokenRow :=
  let store1 :=
    match p.consumeTokenHash with
    | some h => deleteTokenByHash store h
    | none => store
  let store2 :=
    if p.clearUserTokens then deleteTokensByUser store1 p.userId else store1
  store2 ++ [newTokenRow p newId now]

/-- `issueSession`'s call to `persistTokenRecord`: a full session token
(`permission = true`) with `clearUserTokens = true`. -/
def issueSessionPersist (store : List TokenRow) (userId : String)
    (tokenHash : String) (provider providerSub : String) (expiresAt : Int)
    (newId : String) (now : Int) : List TokenRow :=
  persistTokenRecord store
    { tokenHash := tokenHash, userId := userId, provider := some provider,
      providerSub := some providerSub, permission := true,
      expiresAt := expiresAt, consumeTokenHash := none,
      clearUserTokens := true } newId now

/-- `registerAuthFlowToken`: a no-op on an empty clear token, otherwise
`persistTokenRecord` with `permission = false` and
`clearUserTokens = true`. -/
def registerAuthFlowTokenPersist (store : List TokenRow)
    (tokenClear : String) (userId : String) (provider providerSub : String)
    (expiresAt : Int) (newId : String) (now : Int) : List TokenRow :=
  if tokenClear = "" then store
  else
    persistTokenRecord store
      { tokenHash := modelHash tokenClear, userId := userId,
        provider := some provider, providerSub := some providerSub,
        permission := false, expiresAt := expiresAt,
        consumeTokenHash := none, clearUserTokens := true } newId now

/-- `refreshSessionToken`'s call to `persistTokenRecord`: the presented
token's row is consumed by hash (`consumeTokenHash`), and the replacement
full-session row is inserted. -/
def refreshPersist (store : List TokenRow) (oldTokenHash : String)
    (userId : String) (provider providerSub : Option String)
    (newTokenHash : String) (expiresAt : Int) (newId : String) (now : Int) :
    List TokenRow :=
  persistTokenRecord store
    { tokenHash := newTokenHash, userId := userId, provider := provider,
      providerSub := providerSub, permission := true, expiresAt := expiresAt,
      consumeTokenHash := some oldTokenHash, clearUserTokens := false }
    newId now

theorem filter_deleteTokensByUser_self (store : List TokenRow)
    (userId : String) :
    (deleteTokensByUser store userId).filter
        (fun row => row.userId == userId) = [] := by
  unfold deleteTokensByUser
  rw [List.filter_filter]
  have hq : (fun row : TokenRow =>
      (row.userId == userId) && (row.userId != userId)) = fun _ => false := by
    funext row
    cases h : row.userId == userId <;> simp [bne, h]
  rw [hq]
  simp

theorem mem_deleteTokensByUser {store : List TokenRow} {userId : String}
    {row : TokenRow} (hne : row.userId ≠ userId) :
    row ∈ deleteTokensByUser store userId ↔ row ∈ store := by
  unfold deleteTokensByUser
  simp [List.mem_filter, bne, hne]

theorem filter_deleteTokenByHash_self (store : List TokenRow) (h : String) :
    (deleteTokenByHash store h).filter (fun row => row.tokenHash == h) = [] := by
  unfold deleteTokenByHash
  rw [List.filter_filter]
  have hq : (fun row : TokenRow =>
      (row.tokenHash == h) && (row.tokenHash != h)) = fun _ => false := by
    funext row
    cases hc : row.tokenHash == h <;> simp [bne, hc]
  rw [hq]
  simp


theorem maybeSingleByHash_eq_noRow (store : List TokenRow) (h : String)
    (hf : store.filter (fun row => row.tokenHash == h) = []) :
    maybeSingleByHash store h = .noRow := by
  unfold maybeSingleByHash
  rw [hf]

theorem persistTokenRecord_clear_eq (store : List TokenRow)
    (p : PersistInput) (newId : String) (now : Int)
    (hclear : p.clearUserTokens = true) (hcons : p.consumeTokenHash = none) :
    persistTokenRecord store p newId now =
      deleteTokensByUser store p.userId ++ [newTokenRow p newId now] := by
  unfold persistTokenRecord
  rw [hcons, hclear]
  rfl

theorem persistTokenRecord_consume_eq (store : List TokenRow)
    (p : PersistInput) (newId : String) (now : Int) (h : String)
    (hclear : p.clearUserTokens = false)
    (hcons : p.consumeTokenHash = some h) :
    persistTokenRecord store p newId now =
      deleteTokenByHash store h ++ [newTokenRow p newId now] := by
  unfold persistTokenRecord
  rw [hcons, hclear]
  rfl

theorem persistTokenRecord_clear_spec (store : List TokenRow)
    (p : PersistInput) (newId : String) (now : Int)
    (hclear : p.clearUserTokens = true) (hcons : p.consumeTokenHash = none) :
    (persistTokenRecord store p newId now).filter
        (fun row => row.userId == p.userId) = [newTokenRow p newId now] ∧
    ∀ row, row.userId ≠ p.userId →
      (row ∈ persistTokenRecord store p newId now ↔ row ∈ store) := by
  rw [persistTokenRecord_clear_eq store p newId now hclear hcons]
  constructor
  · rw [List.filter_append, filter_deleteTokensByUser_self]
    simp [newTokenRow]
  · intro row hne
    have hrow : row ≠ newTokenRow p newId now := by
      intro hEq
      exact hne (by rw [hEq]; rfl)
    simp [List.mem_append, hrow, mem_deleteTokensByUser hne]

/-- C10: both token-issuing paths — `issueSession` (full session,
`permission = true`) and `registerAuthFlowToken` (restricted flow token,
`permission = false`) — call `persistTokenRecord` with
`clearUserTokens = true`, which runs `deleteTokensByUser` (every token
row of the user, full sessions on other devices included) before the
insert.  Afterwards the user's rows are exactly the single new row, and
rows of other users are untouched.  The hypothesis excludes
`registerAuthFlowToken`'s explicit no-op on an empty clear token. -/
theorem issuance_single_row (store : List TokenRow)
    (userId tokenHash tokenClear provider providerSub : String)
    (expiresAt : Int) (newId : String) (now : Int) (htok : tokenClear ≠ "") :
    ((issueSessionPersist store userId tokenHash provider providerSub
        expiresAt newId now).filter (fun row => row.userId == userId) =
      [newTokenRow
        { tokenHash := tokenHash, userId := userId,
          provider := some provider, providerSub := some providerSub,
          permission := true, expiresAt := expiresAt,
          consumeTokenHash := none, clearUserTokens := true } newId now]) ∧
    ((registerAuthFlowTokenPersist store tokenClear userId provider
        providerSub expiresAt newId now).filter
          (fun row => row.userId == userId) =
      [newTokenRow
        { tokenHash := modelHash tokenClear, userId := userId,
          provider := some provider, providerSub := some providerSub,
          permission := false, expiresAt := expiresAt,
          consumeTokenHash := none, clearUserTokens := true } newId now]) ∧
    (∀ row, row.userId ≠ userId →
      (row ∈ issueSessionPersist store userId tokenHash provider providerSub
          expiresAt newId now ↔ row ∈ store)) ∧
    (∀ row, row.userId ≠ userId →
      (row ∈ registerAuthFlowTokenPersist store tokenClear userId provider
          providerSub expiresAt newId now ↔ row ∈ store)) := by
  have h1 := persistTokenRecord_clear_spec store
    { tokenHash := tokenHash, userId := userId, provider := some provider,
      providerSub := some providerSub, permission := true,
      expiresAt := expiresAt, consumeTokenHash := none,
      clearUserTokens := true } newId now rfl rfl
  have h2 := persistTokenRecord_clear_spec store
    { tokenHash := modelHash tokenClear, userId := userId,
      provider := some provider, providerSub := some providerSub,
      permission := false, expiresAt := expiresAt,
      consumeTokenHash := none, clearUserTokens := true } newId now rfl rfl
  refine ⟨h1.1, ?_, fun row hne => h1.2 row hne, fun row hne => ?_⟩
  · unfold registerAuthFlowTokenPersist
    rw [if_neg htok]
    exact h2.1
  · unfold registerAuthFlowTokenPersist
    rw [if_neg htok]
    exact h2.2 row hne

/-- A concrete `tokens`-table row used by the witnesses below: a live
full session for user `u`. -/
def tokenRowEx : TokenRow :=
  { id := "t0", userId := "u", tokenHash := "sha256:old",
    provider := some "local", providerSub := some "u", issuedAt := 0,
    expiresAt := 5000, revokedAt := none, permission := true }

theorem issuance_single_row_witness :
    (((issueSessionPersist [tokenRowEx] "u" "sha256:new" "local" "u" 9000
        "t1" 200).filter (fun row => row.userId == "u") =
      [newTokenRow
        { tokenHash := "sha256:new", userId := "u",
          provider := some "local", providerSub := some "u",
          permission := true, expiresAt := 9000,
          consumeTokenHash := none, clearUserTokens := true } "t1" 200]) ∧
    ((registerAuthFlowTokenPersist [tokenRowEx] "ptok" "u" "local" "u" 9000
        "t1" 200).filter (fun row => row.userId == "u") =
      [newTokenRow
        { tokenHash := modelHash "ptok", userId := "u",
          provider := some "local", providerSub := some "u",
          permission := false, expiresAt := 9000,
          consumeTokenHash := none, clearUserTokens := true } "t1" 200]) ∧
    (∀ row, row.userId ≠ "u" →
      (row ∈ issueSessionPersist [tokenRowEx] "u" "sha256:new" "local" "u"
          9000 "t1" 200 ↔ row ∈ [tokenRowEx])) ∧
    (∀ row, row.userId ≠ "u" →
      (row ∈ registerAuthFlowTokenPersist [tokenRowEx] "ptok" "u" "local"
          "u" 9000 "t1" 200 ↔ row ∈ [tokenRowEx]))) :=
  issuance_single_row [tokenRowEx] "u" "sha256:new" "ptok" "local" "u" 9000
    "t1" 200 (by decide)

/-- C2: contrary to the grace-window description, `refreshSessionToken`
makes the presented token unusable immediately: `persistTokenRecord`
receives `consumeTokenHash` and deletes the old row by hash before the
replacement row is even inserted, so a lookup of the old token hash
(what the session middleware performs on a request) already finds no row
— not only after the 60 s deferred deletion.  The second conjunct shows
the deferred deletion (`scheduleTokenDeletion`, firing later on the old
row's id) is then a no-op: the row it targets is already gone. -/
theorem refreshPersist_old_token_gone (store : List TokenRow)
    (oldTokenHash userId : String) (provider providerSub : Option String)
    (newTokenHash : String) (expiresAt : Int) (newId : String) (now : Int)
    (hfresh : newTokenHash ≠ oldTokenHash) :
    maybeSingleByHash
        (refreshPersist store oldTokenHash userId provider providerSub
          newTokenHash expiresAt newId now) oldTokenHash = .noRow ∧
    ∀ oldId, (∀ row ∈ store, row.id = oldId → row.tokenHash = oldTokenHash) →
      newId ≠ oldId →
      deleteTokenById
          (refreshPersist store oldTokenHash userId provider providerSub
            newTokenHash expiresAt newId now) oldId =
        refreshPersist store oldTokenHash userId provider providerSub
          newTokenHash expiresAt newId now := by
  have heq :
      refreshPersist store oldTokenHash userId provider providerSub
          newTokenHash expiresAt newId now =
        deleteTokenByHash store oldTokenHash ++
          [newTokenRow
            { tokenHash := newTokenHash, userId := userId,
              provider := provider, providerSub := providerSub,
              permission := true, expiresAt := expiresAt,
              consumeTokenHash := some oldTokenHash,
              clearUserTokens := false } newId now] :=
    persistTokenRecord_consume_eq store _ newId now oldTokenHash rfl rfl
  constructor
  · apply maybeSingleByHash_eq_noRow
    rw [heq, List.filter_append, filter_deleteTokenByHash_self]
    simp [newTokenRow, hfresh]
  · intro oldId hid hnewId
    unfold deleteTokenById
    rw [List.filter_eq_self.mpr]
    intro row hrow
    rw [heq, List.mem_append, List.mem_singleton] at hrow
    rcases hrow with hmem | hnew
    · unfold deleteTokenByHash at hmem
      rw [List.mem_filter] at hmem
      have hhash : row.tokenHash ≠ oldTokenHash := by
        have h2 := hmem.2
        simpa [bne] using h2
      have hidne : row.id ≠ oldId := fun hEq => hhash (hid row hmem.1 hEq)
      simpa [bne] using hidne
    · rw [hnew]
      simpa [newTokenRow, bne] using hnewId

theorem refreshPersist_old_token_gone_witness :
    maybeSingleByHash
        (refreshPersist [tokenRowEx] "sha256:old" "u" (some "local")
          (some "u") "sha256:new" 9000 "t1" 1000) "sha256:old" = .noRow ∧
    ∀ oldId, (∀ row ∈ [tokenRowEx], row.id = oldId →
        row.tokenHash = "sha256:old") →
      "t1" ≠ oldId →
      deleteTokenById
          (refreshPersist [tokenRowEx] "sha256:old" "u" (some "local")
            (some "u") "sha256:new" 9000 "t1" 1000) oldId =
        refreshPersist [tokenRowEx] "sha256:old" "u" (some "local")
          (some "u") "sha256:new" 9000 "t1" 1000 :=
  refreshPersist_old_token_gone [tokenRowEx] "sha256:old" "u" (some "local")
    (some "u") "sha256:new" 9000 "t1" 1000 (by decide)

/-! ## Session Middleware (src/auth/session.middleware.ts) -/

/-- The identity payload `SessionMiddleware.use` attaches to the request
on success. -/
structure SessionPayload where
  userId : String
  tokenId : String
  provider : String
  providerSub : Option String
  expiresAt : Int
  permission : Bool
deriving DecidableEq

/-- Outcome of `SessionMiddleware.use`. -/
inductive MwOutcome where
  | missingToken
  | duplicate
  | unauthorized (msg : String)
  | forbidden (msg : String)
  | proceed (session : SessionPayload)
deriving DecidableEq

/-- The request as the middleware sees it: the detector attributes, the
path fed to `isAuthFlowRoute`, and the result of
`extractTokenFromRequest` (header, then query, then cookie). -/
structure MwRequest where
  r : ReqInfo
  path : String
  tokenClear : Option String
deriving DecidableEq

/-- JavaScript `String.prototype.toUpperCase`, for the ASCII strings the
middleware compares. -/
def jsToUpper (s : String) : String := String.mk (s.data.map Char.toUpper)

/-- JavaScript `String.prototype.toLowerCase`, for the ASCII strings the
middleware compares. -/
def jsToLower (s : String) : String := String.mk (s.data.map Char.toLower)

/-- Character-list core of `String.prototype.startsWith`. -/
def startsWithL : List Char → List Char → Bool
  | [], _ => true
  | _ :: _, [] => false
  | c :: cs, d :: ds => c == d && startsWithL cs ds

/-- JavaScript `s.startsWith(pre)`. -/
def jsStartsWith (s pre : String) : Bool := startsWithL pre.data s.data

/-- `isSafeMethod`: GET, HEAD and OPTIONS skip the duplicate guard. -/
def isSafeMethod (method : String) : Bool :=
  let upper := jsToUpper method
  upper == "GET" || upper == "HEAD" || upper == "OPTIONS"

/-- `isAuthFlowRoute`: paths under /auth/email, /auth/phone or
/auth/terms. -/
def isAuthFlowRoute (path : String) : Bool :=
  let normalized := jsToLower path
  jsStartsWith normalized "/auth/email" || jsStartsWith normalized "/auth/phone" ||
    jsStartsWith normalized "/auth/terms"

/-- `const provider = data.provider ? String(data.provider) : 'unknown'`
(JavaScript truthiness: a null or empty column maps to "unknown"). -/
def providerLabel (p : Option String) : String :=
  match p with
  | some s => if s = "" then "unknown" else s
  | none => "unknown"

/-- `data.provider_sub ? String(data.provider_sub) : undefined`. -/
def providerSubLabel (p : Option String) : Option String :=
  match p with
  | some s => if s = "" then none else some s
  | none => none

/-- Whether `use` runs the duplicate guard for this request. -/
def mwEnforce (req : MwRequest) : Bool :=
  !isSafeMethod req.r.method && !isAuthFlowRoute req.path

/-- `SessionMiddleware.use`, from the token-extraction result on: missing
token → 401; mutating non-auth-flow request already fingerprinted → 429;
otherwise the request is registered with the detector and the token hash
is looked up in `tokens`; no (or ambiguous) row → 401; `permission`
false outside auth-flow routes → 403; otherwise the identity is attached
and the request proceeds.  On the error returns the registered cleanup
closure runs (`handleError`); on proceed it stays registered for the
response hooks.  Note the `select` neither fetches `revoked_at` nor
compares `expires_at`. -/
def sessionMiddlewareUse (req : MwRequest) (dupSt : DupState)
    (store : List TokenRow) (now : Int) : MwOutcome × DupState :=
  match req.tokenClear with
  | none => (.missingToken, dupSt)
  | some tokenClear =>
    let tokenHash := modelHash tokenClear
    let authFlow := isAuthFlowRoute req.path
    let enforce := mwEnforce req
    if enforce && checkDuplicateRequest dupSt req.r tokenClear now then
      (.duplicate, dupSt)
    else
      let registered :=
        if enforce then (registerRequest dupSt req.r tokenClear now).1
        else dupSt
      let signature := generateRequestSignature req.r tokenClear
      let afterError :=
        if enforce then releaseRequest signature registered now
        else registered
      match maybeSingleByHash store tokenHash with
      | .err => (.unauthorized "Token inválido ou expirado.", afterError)
      | .noRow => (.unauthorized "Token inválido ou expirado.", afterError)
      | .one row =>
        if !row.permission && !authFlow then
          (.forbidden "Permissão insuficiente.", afterError)
        else
          (.proceed
            { userId := row.userId, tokenId := row.id,
              provider := providerLabel row.provider,
              providerSub := providerSubLabel row.providerSub,
              expiresAt := row.expiresAt, permission := row.permission },
            registered)

/-- A concrete expired and revoked row that the middleware accepts. -/
def staleRowEx : TokenRow :=
  { id := "t9", userId := "u9", tokenHash := modelHash "staletok",
    provider := some "local", providerSub := some "u9", issuedAt := 0,
    expiresAt := 500, revokedAt := some 600, permission := true }

/-- C1 counterexample: at `now = 1000` the stored row for the presented
token is expired (`expiresAt = 500 < 1000`) and revoked
(`revokedAt = some 600`), yet `use` does not reject with 401 — it
attaches the identity and lets the request proceed, because the lookup
only tests row existence. -/
theorem sessionMiddlewareUse_accepts_stale :
    (sessionMiddlewareUse
        { r := { method := "GET", url := "/books", body := "", query := "",
                 userAgent := "ua", ip := "ip" },
          path := "/books", tokenClear := some "staletok" }
        { pending := [], recent := [] } [staleRowEx] 1000).1 =
      .proceed
        { userId := "u9", tokenId := "t9", provider := "local",
          providerSub := some "u9", expiresAt := 500, permission := true } ∧
    staleRowEx.expiresAt < 1000 ∧ staleRowEx.revokedAt ≠ none := by
  decide

/-- C1 amended: once a bearer token is presented and the duplicate guard
does not fire, the middleware's verdict depends only on whether a
`tokens` row matches the token hash and on the `permission` flag — it
performs no expiry or revocation comparison at all.  No or an ambiguous
row → 401; a row with `permission = false` outside auth-flow routes →
403; any other matching row (expired or revoked included) → the identity
is attached and the request proceeds. -/
theorem sessionMiddlewareUse_spec (req : MwRequest) (dupSt : DupState)
    (store : List TokenRow) (now : Int) (tokenClear : String)
    (htok : req.tokenClear = some tokenClear)
    (hnodup : ¬(mwEnforce req = true ∧
        checkDuplicateRequest dupSt req.r tokenClear now = true)) :
    ((maybeSingleByHash store (modelHash tokenClear) = .err ∨
        maybeSingleByHash store (modelHash tokenClear) = .noRow) →
      (sessionMiddlewareUse req dupSt store now).1 =
        .unauthorized "Token inválido ou expirado.") ∧
    (∀ row, maybeSingleByHash store (modelHash tokenClear) = .one row →
      ((row.permission = false ∧ isAuthFlowRoute req.path = false) →
        (sessionMiddlewareUse req dupSt store now).1 =
          .forbidden "Permissão insuficiente.") ∧
      ((row.permission = true ∨ isAuthFlowRoute req.path = true) →
        (sessionMiddlewareUse req dupSt store now).1 =
          .proceed
            { userId := row.userId, tokenId := row.id,
              provider := providerLabel row.provider,
              providerSub := providerSubLabel row.providerSub,
              expiresAt := row.expiresAt,
              permission := row.permission })) := by
  have hng : (mwEnforce req &&
      checkDuplicateRequest dupSt req.r tokenClear now) = false := by
    cases h1 : mwEnforce req
    · rfl
    · cases h2 : checkDuplicateRequest dupSt req.r tokenClear now
      · rfl
      · exact absurd ⟨h1, h2⟩ hnodup
  constructor
  · intro hcase
    rcases hcase with hms | hms <;>
      simp [sessionMiddlewareUse, htok, hng, hms]
  · intro row hms
    constructor
    · rintro ⟨hperm, haf⟩
      simp [sessionMiddlewareUse, htok, hng, hms, hperm, haf]
    · intro hcase
      rcases hcase with hperm | haf
      · simp [sessionMiddlewareUse, htok, hng, hms, hperm]
      · simp [sessionMiddlewareUse, htok, hng, hms, haf]

/-- A concrete request for the middleware witness: mutating method,
non-auth-flow path, bearer token present. -/
def mwReqEx : MwRequest :=
  { r := { method := "POST", url := "/favorites", body := "b", query := "q",
           userAgent := "ua", ip := "ip" },
    path := "/favorites", tokenClear := some "tok" }

/-- A live full-session row matching `mwReqEx`'s token. -/
def mwRowEx : TokenRow :=
  { id := "t1", userId := "u1", tokenHash := modelHash "tok",
    provider := some "local", providerSub := some "u1", issuedAt := 0,
    expiresAt := 99999, revokedAt := none, permission := true }

theorem sessionMiddlewareUse_spec_witness :
    ((maybeSingleByHash [mwRowEx] (modelHash "tok") = .err ∨
        maybeSingleByHash [mwRowEx] (modelHash "tok") = .noRow) →
      (sessionMiddlewareUse mwReqEx { pending := [], recent := [] }
          [mwRowEx] 50).1 =
        .unauthorized "Token inválido ou expirado.") ∧
    (∀ row, maybeSingleByHash [mwRowEx] (modelHash "tok") = .one row →
      ((row.permission = false ∧ isAuthFlowRoute mwReqEx.path = false) →
        (sessionMiddlewareUse mwReqEx { pending := [], recent := [] }
            [mwRowEx] 50).1 =
          .forbidden "Permissão insuficiente.") ∧
      ((row.permission = true ∨ isAuthFlowRoute mwReqEx.path = true) →
        (sessionMiddlewareUse mwReqEx { pending := [], recent := [] }
            [mwRowEx] 50).1 =
          .proceed
            { userId := row.userId, tokenId := row.id,
              provider := providerLabel row.provider,
              providerSub := providerSubLabel row.providerSub,
              expiresAt := row.expiresAt,
              permission := row.permission })) :=
  sessionMiddlewareUse_spec mwReqEx { pending := [], recent := [] } [mwRowEx]
    50 "tok" rfl (by decide)

/-! ## Time Source (src/common/utils/token.ts)

`utcTimestampPlusMinutes` asks each configured remote source in order and
uses the first reported time; `remote` below is the list of outcomes of
those fetches (`none` = that source failed).  Dates are epoch
milliseconds.  JavaScript `Date.prototype.setHours`/`setMinutes` routes
its argument through `MakeTime`, which truncates non-integral components
toward zero (`ToIntegerOrInfinity`); `jsTrunc` models that truncation. -/

/-- ECMAScript `ToIntegerOrInfinity` on a finite number: truncation
toward zero (T-division of the normalized numerator by the
denominator). -/
def jsTrunc (x : ℚ) : Int := Int.tdiv x.num (x.den : Int)

/-- `addHoursIso(hours, from)`: `expires.setHours(expires.getHours() + hours)`.
`localHour` is `from.getHours()` (the local hour of day, an integer);
the net effect on the epoch time is `trunc(localHour + hours) - localHour`
whole hours. -/
def addHoursIso (hours : ℚ) (fromMs : Int) (localHour : Int) : Int :=
  fromMs + (jsTrunc ((localHour : ℚ) + hours) - localHour) * 3600000

/-- `utcTimestampPlusMinutes(minutes)`: first successful remote time plus
`minutes` whole minutes (`setMinutes(getMinutes() + minutes)`, exact for
integral minutes); if every source failed, fall back to
`addHoursIso(minutes / 60)` on the local clock. -/
def utcTimestampPlusMinutes (minutes : Int) (remote : List (Option Int))
    (localNowMs : Int) (localHour : Int) : Int :=
  match remote.findSome? id with
  | some t => t + minutes * 60000
  | none => addHoursIso ((minutes : ℚ) / 60) localNowMs localHour

/-- C8: the remote half of the claim holds — the first successful source's
time plus exactly `m` minutes is returned — but the local fallback does
not add `m` minutes: it adds `trunc(m / 60)` whole hours, because the
fractional hour count `minutes / 60` is truncated by `setHours`.  At the
program's own auth-flow TTL `m = 5` (with both configured sources
failing, local hour 14) the fallback returns the local time unchanged
instead of 5 minutes later, so freshly issued pending tokens are already
expired. -/
theorem utcTimestampPlusMinutes_fallback_bug :
    (∀ (m t : Int) (rest : List (Option Int)) (localNowMs localHour : Int),
      utcTimestampPlusMinutes m (some t :: rest) localNowMs localHour =
        t + m * 60000) ∧
    (∀ localNowMs : Int,
      utcTimestampPlusMinutes 5 [none, none] localNowMs 14 = localNowMs) ∧
    (∀ localNowMs : Int,
      utcTimestampPlusMinutes 5 [none, none] localNowMs 14 ≠
        localNowMs + 5 * 60000) := by
  have hfall : ∀ localNowMs : Int,
      utcTimestampPlusMinutes 5 [none, none] localNowMs 14 = localNowMs := by
    intro localNowMs
    unfold utcTimestampPlusMinutes addHoursIso
    have hnum : (((14 : Int) : ℚ) + ((5 : Int) : ℚ) / 60).num = 169 := by
      norm_num
    have hden : (((14 : Int) : ℚ) + ((5 : Int) : ℚ) / 60).den = 12 := by
      norm_num
    have htr : jsTrunc (((14 : Int) : ℚ) + ((5 : Int) : ℚ) / 60) = 14 := by
      unfold jsTrunc
      rw [hnum, hden]
      decide
    simp only [List.findSome?, id]
    rw [htr]
    ring
  refine ⟨?_, hfall, fun localNowMs hEq => ?_⟩
  · intro m t rest localNowMs localHour
    simp [utcTimestampPlusMinutes, List.findSome?]
  · rw [hfall localNowMs] at hEq
    omega

theorem utcTimestampPlusMinutes_fallback_bug_witness :
    utcTimestampPlusMinutes 60 [some 500000, none] 0 3 =
        500000 + 60 * 60000 ∧
    utcTimestampPlusMinutes 5 [none, none] 1000000 14 = 1000000 ∧
    utcTimestampPlusMinutes 5 [none, none] 1000000 14 ≠
        1000000 + 5 * 60000 :=
  ⟨utcTimestampPlusMinutes_fallback_bug.1 60 500000 [none] 0 3,
   utcTimestampPlusMinutes_fallback_bug.2.1 1000000,
   utcTimestampPlusMinutes_fallback_bug.2.2 1000000⟩

/-! ## Phone verification (src/auth/phone-verification.service.ts)

In-memory state machine `PhoneVerificationService`.  Timers only replay
the lazy expiry checks performed on access and are not modelled as
separate events; the constants are `PHONE_PENDING_TTL_MINUTES = 10`,
`PHONE_CODE_TTL_MINUTES = 5`, `MAX_VERIFICATION_ATTEMPTS = 5`. -/

/-- JavaScript `String.prototype.trim` (covering the whitespace classes
the inputs here use). -/
def jsTrim (s : String) : String :=
  String.mk
    (((s.data.dropWhile Char.isWhitespace).reverse.dropWhile
        Char.isWhitespace).reverse)

/-- JavaScript truthiness test `!x` on an optional string (`null`,
`undefined` and `""` are falsy). -/
def isFalsyOptStr : Option String → Bool
  | none => true
  | some s => s == ""

/-- `isExpired`: a missing timestamp counts as expired, otherwise
`new Date(iso) <= new Date()`. -/
def isExpired (t : Option Int) (now : Int) : Bool :=
  match t with
  | none => true
  | some ms => ms ≤ now

/-- `normalizePhone`: strip every whitespace character
(`replace(/\s+/g, '')` followed by `trim`). -/
def normalizePhone (s : String) : String :=
  String.mk (s.data.filter (fun c => !c.isWhitespace))

/-- `normalizeLanguage`: `en-US` on a missing or blank value, otherwise
the trimmed value. -/
def normalizeLanguage (l : Option String) : String :=
  match l with
  | none => "en-US"
  | some s =>
      if s = "" then "en-US"
      else
        let trimmed := jsTrim s
        if trimmed.length > 0 then trimmed else "en-US"

/-- `profile_details` row content returned by
`ProfileDetailsService.saveDetails`. -/
structure ProfileDetails where
  phone : Option String
  language : String
  genre : Option String
  acceptedTerms : Bool
deriving DecidableEq

/-- A `PendingRecord` of the phone flow (timer handles omitted). -/
structure PhoneRecord where
  tokenHash : String
  profileId : String
  provider : String
  providerSub : String
  tokenExpiresAt : Int
  phone : Option String
  language : Option String
  codeHash : Option String
  codeExpiresAt : Option Int
  attempts : Nat
deriving DecidableEq

/-- A `CodeCacheEntry` binding a dispatched code to the requesting
machine (timer handle omitted). -/
structure CodeCacheEntry where
  code : String
  expiresAt : Int
  tokenHash : String
deriving DecidableEq

/-- State of `PhoneVerificationService`. -/
structure PhoneState where
  pendingByToken : List (String × PhoneRecord)
  profileIndex : List (String × String)
  codeCache : List (String × CodeCacheEntry)
deriving DecidableEq

/-- `verifyCode`'s success payload. -/
structure VerifiedPhoneResult where
  profileId : String
  provider : String
  providerSub : String
  details : ProfileDetails
deriving DecidableEq

/-- `clearRecord`: drop the record, drop the profile-index entry when it
still points at this record, and evict the machine code cache entries
bound to this token (`evictCachesByToken`). -/
def phoneClearRecord (st : PhoneState) (tokenHash : String) : PhoneState :=
  match lookupA st.pendingByToken tokenHash with
  | none => st
  | some record =>
      { pendingByToken := removeA tokenHash st.pendingByToken,
        profileIndex :=
          if lookupA st.profileIndex record.profileId = some tokenHash then
            removeA record.profileId st.profileIndex
          else st.profileIndex,
        codeCache :=
          st.codeCache.filter (fun p => p.2.tokenHash != tokenHash) }

/-- `createPending`: generate a token (`tokenClear` with its hash) and
TTL timestamp, clear any existing record of the profile, store the fresh
record and index it. -/
def phoneCreatePending (st : PhoneState)
    (profileId provider providerSub : String) (tokenClear : String)
    (tokenExpiresAt : Int) : PhoneState × String × Int :=
  let tokenHash := modelHash tokenClear
  let st1 :=
    match lookupA st.profileIndex profileId with
    | some existingToken => phoneClearRecord st existingToken
    | none => st
  let record : PhoneRecord :=
    { tokenHash := tokenHash, profileId := profileId, provider := provider,
      providerSub := providerSub, tokenExpiresAt := tokenExpiresAt,
      phone := none, language := none, codeHash := none,
      codeExpiresAt := none, attempts := 0 }
  ({ pendingByToken := setA tokenHash record st1.pendingByToken,
     profileIndex := setA profileId tokenHash st1.profileIndex,
     codeCache := st1.codeCache }, tokenClear, tokenExpiresAt)

/-- `getRecordByPendingToken`: hash lookup; a missing record is an
invalid token, a lazily detected expired record is cleared and reported
expired. -/
def phoneGetRecord (st : PhoneState) (token : String) (now : Int) :
    PhoneState × Except String PhoneRecord :=
  let tokenHash := modelHash token
  match lookupA st.pendingByToken tokenHash with
  | none => (st, .error "Token de verificação inválido.")
  | some record =>
      if isExpired (some record.tokenExpiresAt) now then
        (phoneClearRecord st tokenHash,
          .error "Token de verificação expirado. Refaça o login.")
      else (st, .ok record)

/-- `handleInvalidAttempt`: bump `attempts`; at the maximum (5) the whole
record is destroyed and the max-attempts error is thrown (`some msg`);
otherwise control returns to the caller (`none`). -/
def phoneHandleInvalidAttempt (st : PhoneState) (record : PhoneRecord) :
    PhoneState × Option String :=
  let bumped := { record with attempts := record.attempts + 1 }
  let st1 :=
    { st with
        pendingByToken := setA record.tokenHash bumped st.pendingByToken }
  if bumped.attempts ≥ 5 then
    (phoneClearRecord st1 record.tokenHash,
      some "Número máximo de tentativas excedido. Refaça o login.")
  else (st1, none)

/-- `requestCode`: validate inputs and pending token, store the hashed
code with its own 5-minute expiry on the record, reset `attempts`, bind
the clear code to the requesting machine (`storeCodeForMachine`), and
dispatch it.  `phoneAvailable` is the outcome of the external
`ensurePhoneAvailable` store lookup; `codeClear` the generated code;
`codeExpiresAt` the timestamp from `utcTimestampPlusMinutes(5)`. -/
def phoneRequestCode (st : PhoneState) (pendingTokenRaw phoneRaw : String)
    (language : Option String) (machineCodeRaw codeClear : String)
    (codeExpiresAt : Int) (phoneAvailable : Bool) (now : Int) :
    PhoneState × Except String Int :=
  let pendingToken := jsTrim pendingTokenRaw
  if pendingToken = "" then (st, .error "Token de verificação ausente.")
  else
    let phone := normalizePhone phoneRaw
    if phone = "" then (st, .error "Telefone obrigatório.")
    else
      match phoneGetRecord st pendingToken now with
      | (st1, .error e) => (st1, .error e)
      | (st1, .ok record) =>
        if !phoneAvailable then
          (st1, .error "Telefone já vinculado a outra conta.")
        else
          let machineCode := jsTrim machineCodeRaw
          if machineCode = "" then
            (st1, .error "Código da máquina obrigatório.")
          else
            let updated :=
              { record with
                  phone := some phone,
                  language := some (normalizeLanguage language),
                  codeHash := some (modelHash codeClear),
                  codeExpiresAt := some codeExpiresAt, attempts := 0 }
            let entry : CodeCacheEntry :=
              { code := codeClear, expiresAt := codeExpiresAt,
                tokenHash := record.tokenHash }
            ({ pendingByToken :=
                 setA record.tokenHash updated st1.pendingByToken,
               profileIndex := st1.profileIndex,
               codeCache := setA machineCode entry st1.codeCache },
             .ok codeExpiresAt)

/-- `verifyCode`: validate inputs, pending token, machine binding and
code expiries, then compare hashes; a mismatch goes through
`handleInvalidAttempt`; on a match the external `saveDetails` upsert runs
(modelled as succeeding with `details`), the record is destroyed and the
machine cache entry dropped. -/
def phoneVerifyCode (st : PhoneState)
    (pendingTokenRaw codeRaw machineCodeRaw : String) (now : Int)
    (details : ProfileDetails) :
    PhoneState × Except String VerifiedPhoneResult :=
  let pendingToken := jsTrim pendingTokenRaw
  let code := jsTrim codeRaw
  let machineCode := jsTrim machineCodeRaw
  if pendingToken = "" then (st, .error "Token de verificação ausente.")
  else if code = "" then (st, .error "Código obrigatório.")
  else if machineCode = "" then
    (st, .error "Código da máquina obrigatório.")
  else
    match phoneGetRecord st pendingToken now with
    | (st1, .error e) => (st1, .error e)
    | (st1, .ok record) =>
      match lookupA st1.codeCache machineCode with
      | none => (st1, .error "Código não solicitado para esta máquina.")
      | some cached =>
        if cached.tokenHash ≠ record.tokenHash then
          (st1, .error "Código não solicitado para esta máquina.")
        else if isExpired (some cached.expiresAt) now then
          (phoneClearRecord
             { st1 with codeCache := removeA machineCode st1.codeCache }
             record.tokenHash,
           .error "Código expirado. Solicite um novo.")
        else if isFalsyOptStr record.phone then
          (st1, .error "Telefone não informado.")
        else if isFalsyOptStr record.codeHash ∨ record.codeExpiresAt = none
        then (st1, .error "Código não foi solicitado.")
        else if isExpired record.codeExpiresAt now then
          (phoneClearRecord
             { st1 with codeCache := removeA machineCode st1.codeCache }
             record.tokenHash,
           .error "Código expirado. Solicite um novo.")
        else if some (modelHash code) ≠ record.codeHash then
          match phoneHandleInvalidAttempt st1 record with
          | (st2, some msg) => (st2, .error msg)
          | (st2, none) => (st2, .error "Código inválido.")
        else
          let st2 := phoneClearRecord st1 record.tokenHash
          ({ st2 with codeCache := removeA machineCode st2.codeCache },
           .ok { profileId := record.profileId, provider := record.provider,
                 providerSub := record.providerSub, details := details })

/-! ## Email verification (src/auth/email-verification.service.ts)

`EmailVerificationService` drives both email registration and password
reset; constants `EMAIL_PENDING_TTL_MINUTES = 10`,
`EMAIL_CODE_TTL_MINUTES = 5`, `MAX_VERIFICATION_ATTEMPTS = 5`,
`MIN_RESEND_INTERVAL_MS = 45000`. -/

/-- `normalizeEmail`: trim then lower-case. -/
def normalizeEmail (s : String) : String := jsToLower (jsTrim s)

/-- Status of an `EmailRecord`. -/
inductive EmailStatus where
  | pending
  | verified
deriving DecidableEq

/-- An `EmailRecord` (timer handles omitted). -/
structure EmailRecord where
  tokenHash : String
  email : String
  tokenExpiresAt : Int
  status : EmailStatus
  codeHash : Option String
  codeExpiresAt : Option Int
  attempts : Nat
  lastCodeSentAt : Option Int
  registerTokenHash : Option String
  registerTokenExpiresAt : Option Int
  resetTokenHash : Option String
  resetTokenExpiresAt : Option Int
deriving DecidableEq

/-- State of `EmailVerificationService`. -/
structure EmailState where
  pendingByToken : List (String × EmailRecord)
  emailIndex : List (String × String)
  registerIndex : List (String × String)
  resetIndex : List (String × String)
deriving DecidableEq

/-- `verifyCode`'s success payload (`registerToken` clear value, its
expiry, the verified email). -/
structure EmailVerified where
  registerToken : String
  expiresAt : Int
  email : String
deriving DecidableEq

/-- `clearRecord`: drop the record and every index entry that still
points at it. -/
def emailClearRecord (st : EmailState) (tokenHash : String) : EmailState :=
  match lookupA st.pendingByToken tokenHash with
  | none => st
  | some record =>
      { pendingByToken := removeA tokenHash st.pendingByToken,
        emailIndex :=
          if lookupA st.emailIndex record.email = some tokenHash then
            removeA record.email st.emailIndex
          else st.emailIndex,
        registerIndex :=
          match record.registerTokenHash with
          | some h => removeA h st.registerIndex
          | none => st.registerIndex,
        resetIndex :=
          match record.resetTokenHash with
          | some h => removeA h st.resetIndex
          | none => st.resetIndex }

/-- `generateAndStoreCode`: store the fresh code's hash with a 5-minute
expiry, reset `attempts`, remember the send time. -/
def emailGenerateAndStoreCode (record : EmailRecord) (codeClear : String)
    (now : Int) : EmailRecord :=
  { record with
      codeHash := some (modelHash codeClear),
      codeExpiresAt := some (now + 5 * 60000),
      attempts := 0,
      lastCodeSentAt := some now }

/-- `getRecordByToken`: hash lookup; missing → invalid token; lazily
detected expiry → record cleared and reported expired. -/
def emailGetRecord (st : EmailState) (tokenClear : String) (now : Int) :
    EmailState × Except String EmailRecord :=
  let tokenHash := modelHash tokenClear
  match lookupA st.pendingByToken tokenHash with
  | none => (st, .error "Token inválido.")
  | some record =>
      if isExpired (some record.tokenExpiresAt) now then
        (emailClearRecord st tokenHash,
          .error "Token expirado. Solicite novamente.")
      else (st, .ok record)

/-- `handleInvalidAttempt` (email flavour). -/
def emailHandleInvalidAttempt (st : EmailState) (record : EmailRecord) :
    EmailState × Option String :=
  let bumped := { record with attempts := record.attempts + 1 }
  let st1 :=
    { st with
        pendingByToken := setA record.tokenHash bumped st.pendingByToken }
  if bumped.attempts ≥ 5 then
    (emailClearRecord st1 record.tokenHash,
      some "Número máximo de tentativas excedido.")
  else (st1, none)

/-- `request` (email registration): reject a blank email; an existing
verified record whose register token is still live blocks a new request;
otherwise the prior record of this email is cleared, a fresh pending
record is stored and indexed, and a first code is generated and
dispatched. -/
def emailRequest (st : EmailState) (emailRaw : String)
    (tokenClear : String) (tokenExpiresAt : Int) (codeClear : String)
    (now : Int) : EmailState × Except String (String × Int) :=
  let email := normalizeEmail emailRaw
  if email = "" then (st, .error "Email inválido.")
  else
    let blocked : Bool :=
      match lookupA st.emailIndex email with
      | some existingTokenHash =>
          match lookupA st.pendingByToken existingTokenHash with
          | some existing =>
              decide (existing.status = EmailStatus.verified) &&
                !isFalsyOptStr existing.registerTokenHash &&
                existing.registerTokenExpiresAt.isSome &&
                !isExpired existing.registerTokenExpiresAt now
          | none => false
      | none => false
    if blocked then
      (st, .error
        "Este email já foi verificado. Conclua o cadastro com o token recebido.")
    else
      let st1 :=
        match lookupA st.emailIndex email with
        | some existingTokenHash => emailClearRecord st existingTokenHash
        | none => st
      let tokenHash := modelHash tokenClear
      let record : EmailRecord :=
        emailGenerateAndStoreCode
          { tokenHash := tokenHash, email := email,
            tokenExpiresAt := tokenExpiresAt, status := EmailStatus.pending,
            codeHash := none, codeExpiresAt := none, attempts := 0,
            lastCodeSentAt := none, registerTokenHash := none,
            registerTokenExpiresAt := none, resetTokenHash := none,
            resetTokenExpiresAt := none } codeClear now
      ({ pendingByToken := setA tokenHash record st1.pendingByToken,
         emailIndex := setA email tokenHash st1.emailIndex,
         registerIndex := st1.registerIndex,
         resetIndex := st1.resetIndex },
       .ok (tokenClear, tokenExpiresAt))

/-- `verifyCode` (email registration): validate token and code; an
expired code silently regenerates (a fresh code is stored and dispatched)
and reports the expired-new-code-sent error while keeping the record; a
mismatch goes through `handleInvalidAttempt`; a match marks the record
verified and attaches a register continuation token. -/
def emailVerifyCode (st : EmailState) (tokenClear codeRaw : String)
    (now : Int) (newCodeClear registerTokenClear : String)
    (registerExpiresAt : Int) : EmailState × Except String EmailVerified :=
  match emailGetRecord st tokenClear now with
  | (st1, .error e) => (st1, .error e)
  | (st1, .ok record) =>
    if record.status ≠ EmailStatus.pending then
      (st1, .error "Verificação já concluída.")
    else
      let code := jsTrim codeRaw
      if code = "" then (st1, .error "Código obrigatório.")
      else if isFalsyOptStr record.codeHash ∨ record.codeExpiresAt = none
      then (st1, .error "Nenhum código foi solicitado.")
      else if isExpired record.codeExpiresAt now then
        let regenerated := emailGenerateAndStoreCode record newCodeClear now
        ({ st1 with
             pendingByToken :=
               setA record.tokenHash regenerated st1.pendingByToken },
         .error "Código expirado. Um novo código foi enviado.")
      else if some (modelHash code) ≠ record.codeHash then
        match emailHandleInvalidAttempt st1 record with
        | (st2, some msg) => (st2, .error msg)
        | (st2, none) => (st2, .error "Código inválido.")
      else
        let registerHash := modelHash registerTokenClear
        let verifiedRecord :=
          { record with
              status := EmailStatus.verified, codeHash := none,
              codeExpiresAt := none,
              registerTokenHash := some registerHash,
              registerTokenExpiresAt := some registerExpiresAt }
        ({ pendingByToken :=
             setA record.tokenHash verifiedRecord st1.pendingByToken,
           emailIndex := st1.emailIndex,
           registerIndex :=
             setA registerHash record.tokenHash st1.registerIndex,
           resetIndex := st1.resetIndex },
         .ok { registerToken := registerTokenClear,
               expiresAt := registerExpiresAt, email := record.email })

deriving instance DecidableEq for Except

/-- Phone flow example: a pending record created at time 0 (token
`ptok`, pending TTL until 600000). -/
def phoneStEx0 : PhoneState :=
  (phoneCreatePending
    { pendingByToken := [], profileIndex := [], codeCache := [] }
    "p1" "local" "p1" "ptok" 600000).1

/-- …then a code `12345` requested for machine `m1`, code TTL until
300000. -/
def phoneStEx1 : PhoneState :=
  (phoneRequestCode phoneStEx0 "ptok" "11 9999" (some "pt-BR") "m1" "12345"
    300000 true 0).1

/-- The external `saveDetails` result used in phone examples. -/
def detailsEx : ProfileDetails :=
  { phone := some "119999", language := "pt-BR", genre := none,
    acceptedTerms := true }

/-- C3 counterexample: in the phone flow, verifying at time 400000 — the
pending token still alive (expiry 600000) but the code expired (expiry
300000) — does NOT regenerate a code and preserve the record: the whole
record is destroyed and the caller gets the bare failure
`Código expirado. Solicite um novo.` (request a new one), forcing a
restart of the flow. -/
theorem phoneVerifyCode_expired_bare_failure :
    (phoneVerifyCode phoneStEx1 "ptok" "12345" "m1" 400000 detailsEx).2 =
      .error "Código expirado. Solicite um novo." ∧
    lookupA (phoneVerifyCode phoneStEx1 "ptok" "12345" "m1" 400000
        detailsEx).1.pendingByToken (modelHash "ptok") = none ∧
    (400000 : Int) < 600000 := by
  decide

/-- C3 amended: the auto-regeneration behaviour is specific to the email
flows — `EmailVerificationService.verifyCode` on an expired code (while
the pending token is alive) stores a fresh code on the preserved record
and reports `Código expirado. Um novo código foi enviado.` — while the
phone flow destroys the pending record and answers the bare failure
`Código expirado. Solicite um novo.`, forcing a restart of the flow. -/
theorem verifyCode_expired_code_behavior
    (est : EmailState) (etok ecodeRaw : String) (enow : Int)
    (newCodeClear registerTokenClear : String) (registerExpiresAt : Int)
    (erec : EmailRecord)
    (he1 : lookupA est.pendingByToken (modelHash etok) = some erec)
    (hekey : erec.tokenHash = modelHash etok)
    (he2 : enow < erec.tokenExpiresAt)
    (he3 : erec.status = EmailStatus.pending)
    (he4 : jsTrim ecodeRaw ≠ "")
    (he5 : isFalsyOptStr erec.codeHash = false)
    (he6 : erec.codeExpiresAt ≠ none)
    (he7 : isExpired erec.codeExpiresAt enow = true)
    (pst : PhoneState) (ptokRaw pcodeRaw pmachRaw : String) (pnow : Int)
    (pdetails : ProfileDetails) (prec : PhoneRecord)
    (pcached : CodeCacheEntry)
    (hp0 : jsTrim ptokRaw ≠ "") (hp0b : jsTrim pcodeRaw ≠ "")
    (hp0c : jsTrim pmachRaw ≠ "")
    (hp1 : lookupA pst.pendingByToken (modelHash (jsTrim ptokRaw)) =
      some prec)
    (hpkey : prec.tokenHash = modelHash (jsTrim ptokRaw))
    (hp2 : pnow < prec.tokenExpiresAt)
    (hp3 : lookupA pst.codeCache (jsTrim pmachRaw) = some pcached)
    (hp4 : pcached.tokenHash = prec.tokenHash)
    (hp5 : pcached.expiresAt ≤ pnow) :
    (emailVerifyCode est etok ecodeRaw enow newCodeClear registerTokenClear
        registerExpiresAt).2 =
      .error "Código expirado. Um novo código foi enviado." ∧
    lookupA (emailVerifyCode est etok ecodeRaw enow newCodeClear
        registerTokenClear registerExpiresAt).1.pendingByToken
        (modelHash etok) =
      some (emailGenerateAndStoreCode erec newCodeClear enow) ∧
    (phoneVerifyCode pst ptokRaw pcodeRaw pmachRaw pnow pdetails).2 =
      .error "Código expirado. Solicite um novo." ∧
    lookupA (phoneVerifyCode pst ptokRaw pcodeRaw pmachRaw pnow
        pdetails).1.pendingByToken (modelHash (jsTrim ptokRaw)) = none := by
  have healive : isExpired (some erec.tokenExpiresAt) enow = false := by
    simp only [isExpired, decide_eq_false_iff_not]
    omega
  have heget : emailGetRecord est etok enow = (est, .ok erec) := by
    simp [emailGetRecord, he1, healive]
  have hemail :
      emailVerifyCode est etok ecodeRaw enow newCodeClear registerTokenClear
          registerExpiresAt =
        ({ est with
             pendingByToken :=
               setA erec.tokenHash
                 (emailGenerateAndStoreCode erec newCodeClear enow)
                 est.pendingByToken },
         .error "Código expirado. Um novo código foi enviado.") := by
    simp [emailVerifyCode, heget, he3, he4, he5, he6, he7]
  have hpalive : isExpired (some prec.tokenExpiresAt) pnow = false := by
    simp only [isExpired, decide_eq_false_iff_not]
    omega
  have hpget : phoneGetRecord pst (jsTrim ptokRaw) pnow = (pst, .ok prec) := by
    simp [phoneGetRecord, hp1, hpalive]
  have hpexp : isExpired (some pcached.expiresAt) pnow = true := by
    simp only [isExpired, decide_eq_true_eq]
    omega
  have hphone :
      phoneVerifyCode pst ptokRaw pcodeRaw pmachRaw pnow pdetails =
        (phoneClearRecord
          { pst with
              codeCache := removeA (jsTrim pmachRaw) pst.codeCache }
          prec.tokenHash,
         .error "Código expirado. Solicite um novo.") := by
    simp [phoneVerifyCode, hp0, hp0b, hp0c, hpget, hp3, hp4, hpexp]
  have hlookup : lookupA
      (phoneClearRecord
        { pst with codeCache := removeA (jsTrim pmachRaw) pst.codeCache }
        prec.tokenHash).pendingByToken (modelHash (jsTrim ptokRaw)) =
      none := by
    have hlook :
        lookupA pst.pendingByToken prec.tokenHash = some prec := by
      rw [hpkey]
      exact hp1
    simp only [phoneClearRecord]
    simp only [hlook]
    rw [← hpkey]
    exact lookupA_removeA_self _ _
  refine ⟨by rw [hemail], ?_, by rw [hphone], ?_⟩
  · rw [hemail]
    rw [hekey]
    exact lookupA_setA_self _ _ _
  · rw [hphone]
    exact hlookup

/-- Email flow example: a registration request for ` A@B.com ` at time 0
(token `etok`, pending TTL 600000ms; first code `54321`, expiring at
300000). -/
def emailStEx0 : EmailState :=
  (emailRequest
    { pendingByToken := [], emailIndex := [], registerIndex := [],
      resetIndex := [] } " A@B.com " "etok" 600000 "54321" 0).1

/-- The record `emailStEx0` stores for token `etok`. -/
def emailRecEx : EmailRecord :=
  { tokenHash := modelHash "etok", email := "a@b.com",
    tokenExpiresAt := 600000, status := EmailStatus.pending,
    codeHash := some (modelHash "54321"), codeExpiresAt := some 300000,
    attempts := 0, lastCodeSentAt := some 0, registerTokenHash := none,
    registerTokenExpiresAt := none, resetTokenHash := none,
    resetTokenExpiresAt := none }

/-- The record `phoneStEx1` stores for token `ptok`. -/
def phoneRecEx : PhoneRecord :=
  { tokenHash := modelHash "ptok", profileId := "p1", provider := "local",
    providerSub := "p1", tokenExpiresAt := 600000, phone := some "119999",
    language := some "pt-BR", codeHash := some (modelHash "12345"),
    codeExpiresAt := some 300000, attempts := 0 }

/-- The machine-code cache entry `phoneStEx1` stores for machine `m1`. -/
def phoneCacheEx : CodeCacheEntry :=
  { code := "12345", expiresAt := 300000, tokenHash := modelHash "ptok" }

theorem verifyCode_expired_code_behavior_witness :
    (emailVerifyCode emailStEx0 "etok" "54321" 400000 "99999" "rtok"
        900000).2 =
      .error "Código expirado. Um novo código foi enviado." ∧
    lookupA (emailVerifyCode emailStEx0 "etok" "54321" 400000 "99999"
        "rtok" 900000).1.pendingByToken (modelHash "etok") =
      some (emailGenerateAndStoreCode emailRecEx "99999" 400000) ∧
    (phoneVerifyCode phoneStEx1 "ptok" "12345" "m1" 400000 detailsEx).2 =
      .error "Código expirado. Solicite um novo." ∧
    lookupA (phoneVerifyCode phoneStEx1 "ptok" "12345" "m1" 400000
        detailsEx).1.pendingByToken (modelHash (jsTrim "ptok")) = none :=
  verifyCode_expired_code_behavior emailStEx0 "etok" "54321" 400000 "99999"
    "rtok" 900000 emailRecEx (by decide) (by decide) (by decide) (by decide)
    (by decide) (by decide) (by decide) (by decide)
    phoneStEx1 "ptok" "12345" "m1" 400000 detailsEx phoneRecEx phoneCacheEx
    (by decide) (by decide) (by decide) (by decide) (by decide) (by decide)
    (by decide) (by decide) (by decide)

/-- C4: in both code-bearing flows, a failed attempt below the maximum
preserves the record with `attempts` incremented; the 5th consecutive
failure (`attempts` reaching `MAX_VERIFICATION_ATTEMPTS = 5`) destroys
the whole pending record; and once the record is gone every further
`verifyCode` call with that pending token — whatever code it presents —
fails with the invalid-token error, until a new flow is started. -/
theorem maxAttempts_invalidates_record :
    (∀ (est : EmailState) (etok wrongRaw : String) (enow : Int)
        (nc rc : String) (re : Int) (erec : EmailRecord),
      lookupA est.pendingByToken (modelHash etok) = some erec →
      erec.tokenHash = modelHash etok →
      enow < erec.tokenExpiresAt →
      erec.status = EmailStatus.pending →
      jsTrim wrongRaw ≠ "" →
      isFalsyOptStr erec.codeHash = false →
      erec.codeExpiresAt ≠ none →
      isExpired erec.codeExpiresAt enow = false →
      some (modelHash (jsTrim wrongRaw)) ≠ erec.codeHash →
      erec.attempts + 1 < 5 →
      (emailVerifyCode est etok wrongRaw enow nc rc re).2 =
          .error "Código inválido." ∧
        lookupA (emailVerifyCode est etok wrongRaw enow nc rc
            re).1.pendingByToken (modelHash etok) =
          some { erec with attempts := erec.attempts + 1 }) ∧
    (∀ (est : EmailState) (etok wrongRaw : String) (enow : Int)
        (nc rc : String) (re : Int) (erec : EmailRecord),
      lookupA est.pendingByToken (modelHash etok) = some erec →
      erec.tokenHash = modelHash etok →
      enow < erec.tokenExpiresAt →
      erec.status = EmailStatus.pending →
      jsTrim wrongRaw ≠ "" →
      isFalsyOptStr erec.codeHash = false →
      erec.codeExpiresAt ≠ none →
      isExpired erec.codeExpiresAt enow = false →
      some (modelHash (jsTrim wrongRaw)) ≠ erec.codeHash →
      4 ≤ erec.attempts →
      (emailVerifyCode est etok wrongRaw enow nc rc re).2 =
          .error "Número máximo de tentativas excedido." ∧
        lookupA (emailVerifyCode est etok wrongRaw enow nc rc
            re).1.pendingByToken (modelHash etok) = none) ∧
    (∀ (est : EmailState) (etok codeRaw : String) (enow : Int)
        (nc rc : String) (re : Int),
      lookupA est.pendingByToken (modelHash etok) = none →
      emailVerifyCode est etok codeRaw enow nc rc re =
        (est, .error "Token inválido.")) ∧
    (∀ (pst : PhoneState) (ptokRaw wrongRaw machRaw : String) (pnow : Int)
        (pd : ProfileDetails) (prec : PhoneRecord)
        (pcached : CodeCacheEntry),
      jsTrim ptokRaw ≠ "" → jsTrim wrongRaw ≠ "" → jsTrim machRaw ≠ "" →
      lookupA pst.pendingByToken (modelHash (jsTrim ptokRaw)) = some prec →
      prec.tokenHash = modelHash (jsTrim ptokRaw) →
      pnow < prec.tokenExpiresAt →
      lookupA pst.codeCache (jsTrim machRaw) = some pcached →
      pcached.tokenHash = prec.tokenHash →
      pnow < pcached.expiresAt →
      isFalsyOptStr prec.phone = false →
      isFalsyOptStr prec.codeHash = false →
      prec.codeExpiresAt ≠ none →
      isExpired prec.codeExpiresAt pnow = false →
      some (modelHash (jsTrim wrongRaw)) ≠ prec.codeHash →
      prec.attempts + 1 < 5 →
      (phoneVerifyCode pst ptokRaw wrongRaw machRaw pnow pd).2 =
          .error "Código inválido." ∧
        lookupA (phoneVerifyCode pst ptokRaw wrongRaw machRaw pnow
            pd).1.pendingByToken (modelHash (jsTrim ptokRaw)) =
          some { prec with attempts := prec.attempts + 1 }) ∧
    (∀ (pst : PhoneState) (ptokRaw wrongRaw machRaw : String) (pnow : Int)
        (pd : ProfileDetails) (prec : PhoneRecord)
        (pcached : CodeCacheEntry),
      jsTrim ptokRaw ≠ "" → jsTrim wrongRaw ≠ "" → jsTrim machRaw ≠ "" →
      lookupA pst.pendingByToken (modelHash (jsTrim ptokRaw)) = some prec →
      prec.tokenHash = modelHash (jsTrim ptokRaw) →
      pnow < prec.tokenExpiresAt →
      lookupA pst.codeCache (jsTrim machRaw) = some pcached →
      pcached.tokenHash = prec.tokenHash →
      pnow < pcached.expiresAt →
      isFalsyOptStr prec.phone = false →
      isFalsyOptStr prec.codeHash = false →
      prec.codeExpiresAt ≠ none →
      isExpired prec.codeExpiresAt pnow = false →
      some (modelHash (jsTrim wrongRaw)) ≠ prec.codeHash →
      4 ≤ prec.attempts →
      (phoneVerifyCode pst ptokRaw wrongRaw machRaw pnow pd).2 =
          .error "Número máximo de tentativas excedido. Refaça o login." ∧
        lookupA (phoneVerifyCode pst ptokRaw wrongRaw machRaw pnow
            pd).1.pendingByToken (modelHash (jsTrim ptokRaw)) = none) ∧
    (∀ (pst : PhoneState) (ptokRaw codeRaw machRaw : String) (pnow : Int)
        (pd : ProfileDetails),
      jsTrim ptokRaw ≠ "" → jsTrim codeRaw ≠ "" → jsTrim machRaw ≠ "" →
      lookupA pst.pendingByToken (modelHash (jsTrim ptokRaw)) = none →
      phoneVerifyCode pst ptokRaw codeRaw machRaw pnow pd =
        (pst, .error "Token de verificação inválido.")) := by
  refine ⟨?_, ?_, ?_, ?_, ?_, ?_⟩
  · intro est etok wrongRaw enow nc rc re erec he1 hekey halive hst hcode
      h5 h6 h7 hw hlt
    have healive : isExpired (some erec.tokenExpiresAt) enow = false := by
      simp only [isExpired, decide_eq_false_iff_not]
      omega
    have heget : emailGetRecord est etok enow = (est, .ok erec) := by
      simp [emailGetRecord, he1, healive]
    have hnge : ¬ (erec.attempts + 1 ≥ 5) := by omega
    constructor <;>
      simp [emailVerifyCode, heget, hst, hcode, h5, h6, h7, hw,
        emailHandleInvalidAttempt, hnge, hekey, lookupA_setA_self]
  · intro est etok wrongRaw enow nc rc re erec he1 hekey halive hst hcode
      h5 h6 h7 hw hge
    have healive : isExpired (some erec.tokenExpiresAt) enow = false := by
      simp only [isExpired, decide_eq_false_iff_not]
      omega
    have heget : emailGetRecord est etok enow = (est, .ok erec) := by
      simp [emailGetRecord, he1, healive]
    have hge5 : erec.attempts + 1 ≥ 5 := by omega
    constructor <;>
      simp [emailVerifyCode, heget, hst, hcode, h5, h6, h7, hw,
        emailHandleInvalidAttempt, hge5, emailClearRecord, hekey,
        lookupA_setA_self, lookupA_removeA_self]
  · intro est etok codeRaw enow nc rc re hnone
    have heget : emailGetRecord est etok enow =
        (est, .error "Token inválido.") := by
      simp [emailGetRecord, hnone]
    simp [emailVerifyCode, heget]
  · intro pst ptokRaw wrongRaw machRaw pnow pd prec pcached h0 h0b h0c hp1
      hpkey hpalive hp3 hp4 hcexp hph h5 h6 h7 hw hlt
    have hpaliveB : isExpired (some prec.tokenExpiresAt) pnow = false := by
      simp only [isExpired, decide_eq_false_iff_not]
      omega
    have hpget : phoneGetRecord pst (jsTrim ptokRaw) pnow =
        (pst, .ok prec) := by
      simp [phoneGetRecord, hp1, hpaliveB]
    have hcexpB : isExpired (some pcached.expiresAt) pnow = false := by
      simp only [isExpired, decide_eq_false_iff_not]
      omega
    have hnge : ¬ (prec.attempts + 1 ≥ 5) := by omega
    constructor <;>
      simp [phoneVerifyCode, h0, h0b, h0c, hpget, hp3, hp4, hcexpB, hph,
        h5, h6, h7, hw, phoneHandleInvalidAttempt, hnge, hpkey,
        lookupA_setA_self]
  · intro pst ptokRaw wrongRaw machRaw pnow pd prec pcached h0 h0b h0c hp1
      hpkey hpalive hp3 hp4 hcexp hph h5 h6 h7 hw hge
    have hpaliveB : isExpired (some prec.tokenExpiresAt) pnow = false := by
      simp only [isExpired, decide_eq_false_iff_not]
      omega
    have hpget : phoneGetRecord pst (jsTrim ptokRaw) pnow =
        (pst, .ok prec) := by
      simp [phoneGetRecord, hp1, hpaliveB]
    have hcexpB : isExpired (some pcached.expiresAt) pnow = false := by
      simp only [isExpired, decide_eq_false_iff_not]
      omega
    have hge5 : prec.attempts + 1 ≥ 5 := by omega
    constructor <;>
      simp [phoneVerifyCode, h0, h0b, h0c, hpget, hp3, hp4, hcexpB, hph,
        h5, h6, h7, hw, phoneHandleInvalidAttempt, hge5, phoneClearRecord,
        hpkey, lookupA_setA_self, lookupA_removeA_self]
  · intro pst ptokRaw codeRaw machRaw pnow pd h0 h0b h0c hnone
    have hpget : phoneGetRecord pst (jsTrim ptokRaw) pnow =
        (pst, .error "Token de verificação inválido.") := by
      simp [phoneGetRecord, hnone]
    simp [phoneVerifyCode, h0, h0b, h0c, hpget]

/-- One failed email verification attempt (wrong code `00000`) against
`etok` at time 100000. -/
def emailWrongStep (st : EmailState) : EmailState :=
  (emailVerifyCode st "etok" "00000" 100000 "nc" "rt" 900000).1

/-- One failed phone verification attempt (wrong code `00000`, machine
`m1`) against `ptok` at time 100000. -/
def phoneWrongStep (st : PhoneState) : PhoneState :=
  (phoneVerifyCode st "ptok" "00000" "m1" 100000 detailsEx).1

/-- The email state after four consecutive failed attempts. -/
def emailStEx4 : EmailState :=
  emailWrongStep (emailWrongStep (emailWrongStep (emailWrongStep
    emailStEx0)))

/-- The phone state after four consecutive failed attempts. -/
def phoneStEx4 : PhoneState :=
  phoneWrongStep (phoneWrongStep (phoneWrongStep (phoneWrongStep
    phoneStEx1)))

theorem maxAttempts_invalidates_record_witness :
    ((emailVerifyCode emailStEx0 "etok" "00000" 100000 "nc" "rt" 900000).2 =
        .error "Código inválido." ∧
      lookupA (emailVerifyCode emailStEx0 "etok" "00000" 100000 "nc" "rt"
          900000).1.pendingByToken (modelHash "etok") =
        some { emailRecEx with attempts := emailRecEx.attempts + 1 }) ∧
    ((emailVerifyCode emailStEx4 "etok" "00000" 100000 "nc" "rt" 900000).2 =
        .error "Número máximo de tentativas excedido." ∧
      lookupA (emailVerifyCode emailStEx4 "etok" "00000" 100000 "nc" "rt"
          900000).1.pendingByToken (modelHash "etok") = none) ∧
    (emailVerifyCode (emailWrongStep emailStEx4) "etok" "54321" 100000 "nc"
        "rt" 900000 =
      (emailWrongStep emailStEx4, .error "Token inválido.")) ∧
    ((phoneVerifyCode phoneStEx1 "ptok" "00000" "m1" 100000 detailsEx).2 =
        .error "Código inválido." ∧
      lookupA (phoneVerifyCode phoneStEx1 "ptok" "00000" "m1" 100000
          detailsEx).1.pendingByToken (modelHash (jsTrim "ptok")) =
        some { phoneRecEx with attempts := phoneRecEx.attempts + 1 }) ∧
    ((phoneVerifyCode phoneStEx4 "ptok" "00000" "m1" 100000 detailsEx).2 =
        .error "Número máximo de tentativas excedido. Refaça o login." ∧
      lookupA (phoneVerifyCode phoneStEx4 "ptok" "00000" "m1" 100000
          detailsEx).1.pendingByToken (modelHash (jsTrim "ptok")) = none) ∧
    (phoneVerifyCode (phoneWrongStep phoneStEx4) "ptok" "12345" "m1" 100000
        detailsEx =
      (phoneWrongStep phoneStEx4, .error "Token de verificação inválido.")) :=
  ⟨maxAttempts_invalidates_record.1 emailStEx0 "etok" "00000" 100000 "nc"
      "rt" 900000 emailRecEx (by decide) (by decide) (by decide) (by decide)
      (by decide) (by decide) (by decide) (by decide) (by decide)
      (by decide),
   maxAttempts_invalidates_record.2.1 emailStEx4 "etok" "00000" 100000 "nc"
      "rt" 900000 { emailRecEx with attempts := 4 } (by decide) (by decide)
      (by decide) (by decide) (by decide) (by decide) (by decide)
      (by decide) (by decide) (by decide),
   maxAttempts_invalidates_record.2.2.1 (emailWrongStep emailStEx4) "etok"
      "54321" 100000 "nc" "rt" 900000 (by decide),
   maxAttempts_invalidates_record.2.2.2.1 phoneStEx1 "ptok" "00000" "m1"
      100000 detailsEx phoneRecEx phoneCacheEx (by decide) (by decide)
      (by decide) (by decide) (by decide) (by decide) (by decide)
      (by decide) (by decide) (by decide) (by decide) (by decide)
      (by decide) (by decide) (by decide),
   maxAttempts_invalidates_record.2.2.2.2.1 phoneStEx4 "ptok" "00000" "m1"
      100000 detailsEx { phoneRecEx with attempts := 4 } phoneCacheEx
      (by decide) (by decide) (by decide) (by decide) (by decide)
      (by decide) (by decide) (by decide) (by decide) (by decide)
      (by decide) (by decide) (by decide) (by decide) (by decide),
   maxAttempts_invalidates_record.2.2.2.2.2 (phoneWrongStep phoneStEx4)
      "ptok" "12345" "m1" 100000 detailsEx (by decide) (by decide)
      (by decide) (by decide)⟩

/-- Consistency of `PhoneVerificationService`'s two maps: every stored
record is keyed by its own token hash and indexed by its profile, and
every index entry points at a live record of that profile.  This is what
makes "at most one active record per subject" hold. -/
def PhoneInv (st : PhoneState) : Prop :=
  (∀ h r, lookupA st.pendingByToken h = some r →
      r.tokenHash = h ∧ lookupA st.profileIndex r.profileId = some h) ∧
  (∀ p h, lookupA st.profileIndex p = some h →
      ∃ r, lookupA st.pendingByToken h = some r ∧ r.profileId = p)

theorem phoneInv_at_most_one (st : PhoneState) (hInv : PhoneInv st) :
    ∀ h1 r1 h2 r2, lookupA st.pendingByToken h1 = some r1 →
      lookupA st.pendingByToken h2 = some r2 →
      r1.profileId = r2.profileId → h1 = h2 := by
  intro h1 r1 h2 r2 hr1 hr2 hp
  have i1 := (hInv.1 h1 r1 hr1).2
  have i2 := (hInv.1 h2 r2 hr2).2
  rw [hp] at i1
  rw [i1] at i2
  exact Option.some_injective _ i2

theorem phoneClearRecord_inv (st : PhoneState) (tokenHash : String)
    (hInv : PhoneInv st) : PhoneInv (phoneClearRecord st tokenHash) := by
  obtain ⟨h1, h2⟩ := hInv
  unfold phoneClearRecord
  cases hlook : lookupA st.pendingByToken tokenHash with
  | none => exact ⟨h1, h2⟩
  | some record =>
    dsimp only
    by_cases hidx : lookupA st.profileIndex record.profileId = some tokenHash
    · rw [if_pos hidx]
      constructor
      · intro h r hr
        have hne : h ≠ tokenHash := by
          intro hEq
          rw [hEq, lookupA_removeA_self] at hr
          exact Option.noConfusion hr
        rw [lookupA_removeA_ne hne] at hr
        obtain ⟨hkey, hidx2⟩ := h1 h r hr
        refine ⟨hkey, ?_⟩
        have hpne : r.profileId ≠ record.profileId := by
          intro hEq
          rw [hEq, hidx] at hidx2
          exact hne (Option.some_injective _ hidx2.symm)
        rw [lookupA_removeA_ne hpne]
        exact hidx2
      · intro p h hp
        have hpne : p ≠ record.profileId := by
          intro hEq
          rw [hEq, lookupA_removeA_self] at hp
          exact Option.noConfusion hp
        rw [lookupA_removeA_ne hpne] at hp
        obtain ⟨r, hr, hrp⟩ := h2 p h hp
        have hne : h ≠ tokenHash := by
          intro hEq
          rw [hEq, hlook] at hr
          have hrec : record = r := Option.some_injective _ hr
          rw [← hrec] at hrp
          exact hpne hrp.symm
        refine ⟨r, ?_, hrp⟩
        rw [lookupA_removeA_ne hne]
        exact hr
    · rw [if_neg hidx]
      constructor
      · intro h r hr
        have hne : h ≠ tokenHash := by
          intro hEq
          rw [hEq, lookupA_removeA_self] at hr
          exact Option.noConfusion hr
        rw [lookupA_removeA_ne hne] at hr
        exact h1 h r hr
      · intro p h hp
        obtain ⟨r, hr, hrp⟩ := h2 p h hp
        have hne : h ≠ tokenHash := by
          intro hEq
          rw [hEq, hlook] at hr
          have hrec : record = r := Option.some_injective _ hr
          rw [← hrec] at hrp
          rw [hrp] at hidx
          exact hidx (hEq ▸ hp)
        refine ⟨r, ?_, hrp⟩
        rw [lookupA_removeA_ne hne]
        exact hr

/-- The fresh record `createPending` stores. -/
def phoneNewRecord (profileId provider providerSub tokenClear : String)
    (tokenExpiresAt : Int) : PhoneRecord :=
  { tokenHash := modelHash tokenClear, profileId := profileId,
    provider := provider, providerSub := providerSub,
    tokenExpiresAt := tokenExpiresAt, phone := none, language := none,
    codeHash := none, codeExpiresAt := none, attempts := 0 }

theorem phoneCreateCore (st1 : PhoneState)
    (profileId provider providerSub tokenClear : String)
    (tokenExpiresAt : Int) (hInv1 : PhoneInv st1)
    (hB : ∀ h r, lookupA st1.pendingByToken h = some r →
      r.profileId ≠ profileId)
    (hfresh1 : lookupA st1.pendingByToken (modelHash tokenClear) = none) :
    PhoneInv
      { pendingByToken :=
          setA (modelHash tokenClear)
            (phoneNewRecord profileId provider providerSub tokenClear
              tokenExpiresAt) st1.pendingByToken,
        profileIndex :=
          setA profileId (modelHash tokenClear) st1.profileIndex,
        codeCache := st1.codeCache } := by
  obtain ⟨h1, h2⟩ := hInv1
  constructor
  · intro h r hr
    by_cases hh : modelHash tokenClear = h
    · rw [← hh, lookupA_setA_self] at hr
      have hrec := Option.some_injective _ hr
      rw [← hrec]
      exact ⟨hh, by simp [phoneNewRecord, lookupA_setA_self, hh]⟩
    · rw [lookupA_setA_ne (fun hEq => hh hEq.symm)] at hr
      obtain ⟨hkey, hidx2⟩ := h1 h r hr
      refine ⟨hkey, ?_⟩
      have hpne : r.profileId ≠ profileId := hB h r hr
      rw [lookupA_setA_ne hpne]
      exact hidx2
  · intro p h hp
    by_cases hp0 : profileId = p
    · rw [← hp0, lookupA_setA_self] at hp
      have hh := Option.some_injective _ hp
      refine ⟨phoneNewRecord profileId provider providerSub tokenClear
        tokenExpiresAt, ?_, hp0⟩
      rw [← hh]
      exact lookupA_setA_self _ _ _
    · rw [lookupA_setA_ne (fun hEq => hp0 hEq.symm)] at hp
      obtain ⟨r, hr, hrp⟩ := h2 p h hp
      have hne : h ≠ modelHash tokenClear := by
        intro hEq
        rw [hEq, hfresh1] at hr
        exact Option.noConfusion hr
      refine ⟨r, ?_, hrp⟩
      rw [lookupA_setA_ne hne]
      exact hr

theorem phoneCreatePending_state (st : PhoneState)
    (profileId provider providerSub tokenClear : String)
    (tokenExpiresAt : Int) :
    (phoneCreatePending st profileId provider providerSub tokenClear
        tokenExpiresAt).1 =
      { pendingByToken :=
          setA (modelHash tokenClear)
            (phoneNewRecord profileId provider providerSub tokenClear
              tokenExpiresAt)
            (match lookupA st.profileIndex profileId with
             | some existingToken =>
                 (phoneClearRecord st existingToken).pendingByToken
             | none => st.pendingByToken),
        profileIndex :=
          setA profileId (modelHash tokenClear)
            (match lookupA st.profileIndex profileId with
             | some existingToken =>
                 (phoneClearRecord st existingToken).profileIndex
             | none => st.profileIndex),
        codeCache :=
          match lookupA st.profileIndex profileId with
          | some existingToken =>
              (phoneClearRecord st existingToken).codeCache
          | none => st.codeCache } := by
  unfold phoneCreatePending phoneNewRecord
  cases lookupA st.profileIndex profileId <;> rfl

theorem phoneCreatePending_supersedes (st : PhoneState)
    (profileId provider providerSub tokenClear : String)
    (tokenExpiresAt : Int) (hInv : PhoneInv st)
    (hfresh : lookupA st.pendingByToken (modelHash tokenClear) = none) :
    PhoneInv (phoneCreatePending st profileId provider providerSub
        tokenClear tokenExpiresAt).1 ∧
    lookupA (phoneCreatePending st profileId provider providerSub
        tokenClear tokenExpiresAt).1.pendingByToken (modelHash tokenClear) =
      some (phoneNewRecord profileId provider providerSub tokenClear
        tokenExpiresAt) ∧
    (∀ h, lookupA st.profileIndex profileId = some h →
      lookupA (phoneCreatePending st profileId provider providerSub
        tokenClear tokenExpiresAt).1.pendingByToken h = none) ∧
    (∀ h r, lookupA (phoneCreatePending st profileId provider providerSub
        tokenClear tokenExpiresAt).1.pendingByToken h = some r →
      r.profileId = profileId → h = modelHash tokenClear) := by
  rw [phoneCreatePending_state]
  cases hidxp : lookupA st.profileIndex profileId with
  | none =>
    dsimp only
    have hB : ∀ h r, lookupA st.pendingByToken h = some r →
        r.profileId ≠ profileId := by
      intro h r hr hEq
      have hidx2 := (hInv.1 h r hr).2
      rw [hEq, hidxp] at hidx2
      exact Option.noConfusion hidx2
    refine ⟨phoneCreateCore st profileId provider providerSub tokenClear
      tokenExpiresAt hInv hB hfresh, lookupA_setA_self _ _ _, ?_, ?_⟩
    · intro h hidxh
      exact Option.noConfusion hidxh
    · intro h r hr hEq
      by_cases hh : modelHash tokenClear = h
      · exact hh.symm
      · rw [lookupA_setA_ne (fun hEq2 => hh hEq2.symm)] at hr
        exact absurd hEq (hB h r hr)
  | some oldH =>
    dsimp only
    obtain ⟨oldR, holdR, holdP⟩ := hInv.2 profileId oldH hidxp
    have hclear_pending :
        (phoneClearRecord st oldH).pendingByToken =
          removeA oldH st.pendingByToken := by
      simp [phoneClearRecord, holdR]
    have hInv1 := phoneClearRecord_inv st oldH hInv
    have hB : ∀ h r,
        lookupA (phoneClearRecord st oldH).pendingByToken h = some r →
        r.profileId ≠ profileId := by
      intro h r hr hEq
      rw [hclear_pending] at hr
      have hne : h ≠ oldH := by
        intro hEq2
        rw [hEq2, lookupA_removeA_self] at hr
        exact Option.noConfusion hr
      rw [lookupA_removeA_ne hne] at hr
      have hidx2 := (hInv.1 h r hr).2
      rw [hEq, hidxp] at hidx2
      exact hne (Option.some_injective _ hidx2.symm)
    have hfresh1 :
        lookupA (phoneClearRecord st oldH).pendingByToken
          (modelHash tokenClear) = none := by
      rw [hclear_pending]
      by_cases hmh : modelHash tokenClear = oldH
      · rw [hmh]
        exact lookupA_removeA_self _ _
      · rw [lookupA_removeA_ne hmh]
        exact hfresh
    have holdne : oldH ≠ modelHash tokenClear := by
      intro hEq
      rw [hEq, hfresh] at holdR
      exact Option.noConfusion holdR
    refine ⟨phoneCreateCore (phoneClearRecord st oldH) profileId provider
      providerSub tokenClear tokenExpiresAt hInv1 hB hfresh1,
      lookupA_setA_self _ _ _, ?_, ?_⟩
    · intro h hidxh
      have hhold : oldH = h := Option.some_injective _ hidxh
      rw [← hhold]
      rw [lookupA_setA_ne holdne, hclear_pending]
      exact lookupA_removeA_self _ _
    · intro h r hr hEq
      by_cases hh : modelHash tokenClear = h
      · exact hh.symm
      · rw [lookupA_setA_ne (fun hEq2 => hh hEq2.symm)] at hr
        exact absurd hEq (hB h r hr)

/-- Consistency of `EmailVerificationService`'s record map and email
index (the analogue of `PhoneInv`). -/
def EmailInv (st : EmailState) : Prop :=
  (∀ h r, lookupA st.pendingByToken h = some r →
      r.tokenHash = h ∧ lookupA st.emailIndex r.email = some h) ∧
  (∀ e h, lookupA st.emailIndex e = some h →
      ∃ r, lookupA st.pendingByToken h = some r ∧ r.email = e)

theorem emailClearRecord_inv (st : EmailState) (tokenHash : String)
    (hInv : EmailInv st) : EmailInv (emailClearRecord st tokenHash) := by
  obtain ⟨h1, h2⟩ := hInv
  unfold emailClearRecord
  cases hlook : lookupA st.pendingByToken tokenHash with
  | none => exact ⟨h1, h2⟩
  | some record =>
    dsimp only
    by_cases hidx : lookupA st.emailIndex record.email = some tokenHash
    · rw [if_pos hidx]
      constructor
      · intro h r hr
        have hne : h ≠ tokenHash := by
          intro hEq
          rw [hEq, lookupA_removeA_self] at hr
          exact Option.noConfusion hr
        rw [lookupA_removeA_ne hne] at hr
        obtain ⟨hkey, hidx2⟩ := h1 h r hr
        refine ⟨hkey, ?_⟩
        have hpne : r.email ≠ record.email := by
          intro hEq
          rw [hEq, hidx] at hidx2
          exact hne (Option.some_injective _ hidx2.symm)
        rw [lookupA_removeA_ne hpne]
        exact hidx2
      · intro e h hp
        have hpne : e ≠ record.email := by
          intro hEq
          rw [hEq, lookupA_removeA_self] at hp
          exact Option.noConfusion hp
        rw [lookupA_removeA_ne hpne] at hp
        obtain ⟨r, hr, hrp⟩ := h2 e h hp
        have hne : h ≠ tokenHash := by
          intro hEq
          rw [hEq, hlook] at hr
          have hrec : record = r := Option.some_injective _ hr
          rw [← hrec] at hrp
          exact hpne hrp.symm
        refine ⟨r, ?_, hrp⟩
        rw [lookupA_removeA_ne hne]
        exact hr
    · rw [if_neg hidx]
      constructor
      · intro h r hr
        have hne : h ≠ tokenHash := by
          intro hEq
          rw [hEq, lookupA_removeA_self] at hr
          exact Option.noConfusion hr
        rw [lookupA_removeA_ne hne] at hr
        exact h1 h r hr
      · intro e h hp
        obtain ⟨r, hr, hrp⟩ := h2 e h hp
        have hne : h ≠ tokenHash := by
          intro hEq
          rw [hEq, hlook] at hr
          have hrec : record = r := Option.some_injective _ hr
          rw [← hrec] at hrp
          rw [hrp] at hidx
          exact hidx (hEq ▸ hp)
        refine ⟨r, ?_, hrp⟩
        rw [lookupA_removeA_ne hne]
        exact hr

/-- The fresh record `request` stores (base fields, then
`generateAndStoreCode`). -/
def emailNewRecord (email tokenClear : String) (tokenExpiresAt : Int)
    (codeClear : String) (now : Int) : EmailRecord :=
  emailGenerateAndStoreCode
    { tokenHash := modelHash tokenClear, email := email,
      tokenExpiresAt := tokenExpiresAt, status := EmailStatus.pending,
      codeHash := none, codeExpiresAt := none, attempts := 0,
      lastCodeSentAt := none, registerTokenHash := none,
      registerTokenExpiresAt := none, resetTokenHash := none,
      resetTokenExpiresAt := none } codeClear now

theorem emailCreateCore (st1 : EmailState) (email tokenClear : String)
    (tokenExpiresAt : Int) (codeClear : String) (now : Int)
    (hInv1 : EmailInv st1)
    (hB : ∀ h r, lookupA st1.pendingByToken h = some r → r.email ≠ email)
    (hfresh1 : lookupA st1.pendingByToken (modelHash tokenClear) = none) :
    EmailInv
      { pendingByToken :=
          setA (modelHash tokenClear)
            (emailNewRecord email tokenClear tokenExpiresAt codeClear now)
            st1.pendingByToken,
        emailIndex := setA email (modelHash tokenClear) st1.emailIndex,
        registerIndex := st1.registerIndex,
        resetIndex := st1.resetIndex } := by
  obtain ⟨h1, h2⟩ := hInv1
  constructor
  · intro h r hr
    by_cases hh : modelHash tokenClear = h
    · rw [← hh, lookupA_setA_self] at hr
      have hrec := Option.some_injective _ hr
      rw [← hrec]
      exact ⟨hh, by
        simp [emailNewRecord, emailGenerateAndStoreCode, lookupA_setA_self,
          hh]⟩
    · rw [lookupA_setA_ne (fun hEq => hh hEq.symm)] at hr
      obtain ⟨hkey, hidx2⟩ := h1 h r hr
      refine ⟨hkey, ?_⟩
      have hpne : r.email ≠ email := hB h r hr
      rw [lookupA_setA_ne hpne]
      exact hidx2
  · intro e h hp
    by_cases hp0 : email = e
    · rw [← hp0, lookupA_setA_self] at hp
      have hh := Option.some_injective _ hp
      refine ⟨emailNewRecord email tokenClear tokenExpiresAt codeClear now,
        ?_, ?_⟩
      · rw [← hh]
        exact lookupA_setA_self _ _ _
      · simp [emailNewRecord, emailGenerateAndStoreCode, hp0]
    · rw [lookupA_setA_ne (fun hEq => hp0 hEq.symm)] at hp
      obtain ⟨r, hr, hrp⟩ := h2 e h hp
      have hne : h ≠ modelHash tokenClear := by
        intro hEq
        rw [hEq, hfresh1] at hr
        exact Option.noConfusion hr
      refine ⟨r, ?_, hrp⟩
      rw [lookupA_setA_ne hne]
      exact hr

theorem emailRequest_supersedes (st st' : EmailState)
    (emailRaw tokenClear : String) (tokenExpiresAt : Int)
    (codeClear : String) (now : Int) (hInv : EmailInv st)
    (hfresh : lookupA st.pendingByToken (modelHash tokenClear) = none)
    (hok : emailRequest st emailRaw tokenClear tokenExpiresAt codeClear
      now = (st', Except.ok (tokenClear, tokenExpiresAt))) :
    EmailInv st' ∧
    lookupA st'.pendingByToken (modelHash tokenClear) =
      some (emailNewRecord (normalizeEmail emailRaw) tokenClear
        tokenExpiresAt codeClear now) ∧
    (∀ h, lookupA st.emailIndex (normalizeEmail emailRaw) = some h →
      lookupA st'.pendingByToken h = none) ∧
    (∀ h r, lookupA st'.pendingByToken h = some r →
      r.email = normalizeEmail emailRaw → h = modelHash tokenClear) := by
  by_cases hemail : normalizeEmail emailRaw = ""
  · exfalso
    simp [emailRequest, hemail] at hok
  · cases hidxe : lookupA st.emailIndex (normalizeEmail emailRaw) with
    | none =>
      have hred : emailRequest st emailRaw tokenClear tokenExpiresAt
          codeClear now =
          ({ pendingByToken :=
               setA (modelHash tokenClear)
                 (emailNewRecord (normalizeEmail emailRaw) tokenClear
                   tokenExpiresAt codeClear now) st.pendingByToken,
             emailIndex :=
               setA (normalizeEmail emailRaw) (modelHash tokenClear)
                 st.emailIndex,
             registerIndex := st.registerIndex,
             resetIndex := st.resetIndex },
           Except.ok (tokenClear, tokenExpiresAt)) := by
        simp [emailRequest, hemail, hidxe, emailNewRecord]
      rw [hred] at hok
      have hst : st' =
          { pendingByToken :=
              setA (modelHash tokenClear)
                (emailNewRecord (normalizeEmail emailRaw) tokenClear
                  tokenExpiresAt codeClear now) st.pendingByToken,
            emailIndex :=
              setA (normalizeEmail emailRaw) (modelHash tokenClear)
                st.emailIndex,
            registerIndex := st.registerIndex,
            resetIndex := st.resetIndex } :=
        (congrArg Prod.fst hok).symm
      subst hst
      have hB : ∀ h r, lookupA st.pendingByToken h = some r →
          r.email ≠ normalizeEmail emailRaw := by
        intro h r hr hEq
        have hidx2 := (hInv.1 h r hr).2
        rw [hEq, hidxe] at hidx2
        exact Option.noConfusion hidx2
      refine ⟨emailCreateCore st (normalizeEmail emailRaw) tokenClear
        tokenExpiresAt codeClear now hInv hB hfresh,
        lookupA_setA_self _ _ _, ?_, ?_⟩
      · intro h hidxh
        exact Option.noConfusion hidxh
      · intro h r hr hEq
        by_cases hh : modelHash tokenClear = h
        · exact hh.symm
        · have hr2 : lookupA
              (setA (modelHash tokenClear)
                (emailNewRecord (normalizeEmail emailRaw) tokenClear
                  tokenExpiresAt codeClear now) st.pendingByToken) h =
              some r := hr
          rw [lookupA_setA_ne (fun hEq2 => hh hEq2.symm)] at hr2
          exact absurd hEq (hB h r hr2)
    | some oldH =>
      obtain ⟨oldR, holdR, holdP⟩ := hInv.2 _ oldH hidxe
      by_cases hbl : (decide (oldR.status = EmailStatus.verified) &&
          !isFalsyOptStr oldR.registerTokenHash &&
          oldR.registerTokenExpiresAt.isSome &&
          !isExpired oldR.registerTokenExpiresAt now) = true
      · exfalso
        have hred : emailRequest st emailRaw tokenClear tokenExpiresAt
            codeClear now =
            (st, Except.error
              "Este email já foi verificado. Conclua o cadastro com o token recebido.") := by
          simp [emailRequest, hemail, hidxe, holdR, hbl]
        rw [hred] at hok
        simpa using congrArg Prod.snd hok
      · have hblf : (decide (oldR.status = EmailStatus.verified) &&
            !isFalsyOptStr oldR.registerTokenHash &&
            oldR.registerTokenExpiresAt.isSome &&
            !isExpired oldR.registerTokenExpiresAt now) = false := by
          simpa using hbl
        have hred : emailRequest st emailRaw tokenClear tokenExpiresAt
            codeClear now =
            ({ pendingByToken :=
                 setA (modelHash tokenClear)
                   (emailNewRecord (normalizeEmail emailRaw) tokenClear
                     tokenExpiresAt codeClear now)
                   (emailClearRecord st oldH).pendingByToken,
               emailIndex :=
                 setA (normalizeEmail emailRaw) (modelHash tokenClear)
                   (emailClearRecord st oldH).emailIndex,
               registerIndex := (emailClearRecord st oldH).registerIndex,
               resetIndex := (emailClearRecord st oldH).resetIndex },
             Except.ok (tokenClear, tokenExpiresAt)) := by
          simp [emailRequest, hemail, hidxe, holdR, hblf, emailNewRecord]
        rw [hred] at hok
        have hst : st' =
            { pendingByToken :=
                setA (modelHash tokenClear)
                  (emailNewRecord (normalizeEmail emailRaw) tokenClear
                    tokenExpiresAt codeClear now)
                  (emailClearRecord st oldH).pendingByToken,
              emailIndex :=
                setA (normalizeEmail emailRaw) (modelHash tokenClear)
                  (emailClearRecord st oldH).emailIndex,
              registerIndex := (emailClearRecord st oldH).registerIndex,
              resetIndex := (emailClearRecord st oldH).resetIndex } :=
          (congrArg Prod.fst hok).symm
        subst hst
        have hclear_pending :
            (emailClearRecord st oldH).pendingByToken =
              removeA oldH st.pendingByToken := by
          simp [emailClearRecord, holdR]
        have hInv1 := emailClearRecord_inv st oldH hInv
        have hB : ∀ h r,
            lookupA (emailClearRecord st oldH).pendingByToken h = some r →
            r.email ≠ normalizeEmail emailRaw := by
          intro h r hr hEq
          rw [hclear_pending] at hr
          have hne : h ≠ oldH := by
            intro hEq2
            rw [hEq2, lookupA_removeA_self] at hr
            exact Option.noConfusion hr
          rw [lookupA_removeA_ne hne] at hr
          have hidx2 := (hInv.1 h r hr).2
          rw [hEq, hidxe] at hidx2
          exact hne (Option.some_injective _ hidx2.symm)
        have hfresh1 :
            lookupA (emailClearRecord st oldH).pendingByToken
              (modelHash tokenClear) = none := by
          rw [hclear_pending]
          by_cases hmh : modelHash tokenClear = oldH
          · rw [hmh]
            exact lookupA_removeA_self _ _
          · rw [lookupA_removeA_ne hmh]
            exact hfresh
        have holdne : oldH ≠ modelHash tokenClear := by
          intro hEq
          rw [hEq, hfresh] at holdR
          exact Option.noConfusion holdR
        refine ⟨emailCreateCore (emailClearRecord st oldH)
          (normalizeEmail emailRaw) tokenClear tokenExpiresAt codeClear now
          hInv1 hB hfresh1, lookupA_setA_self _ _ _, ?_, ?_⟩
        · intro h hidxh
          have hhold : oldH = h := Option.some_injective _ hidxh
          rw [← hhold]
          show lookupA
              (setA (modelHash tokenClear)
                (emailNewRecord (normalizeEmail emailRaw) tokenClear
                  tokenExpiresAt codeClear now)
                (emailClearRecord st oldH).pendingByToken) oldH = none
          rw [lookupA_setA_ne holdne, hclear_pending]
          exact lookupA_removeA_self _ _
        · intro h r hr hEq
          by_cases hh : modelHash tokenClear = h
          · exact hh.symm
          · have hr2 : lookupA
                (setA (modelHash tokenClear)
                  (emailNewRecord (normalizeEmail emailRaw) tokenClear
                    tokenExpiresAt codeClear now)
                  (emailClearRecord st oldH).pendingByToken) h =
                some r := hr
            rw [lookupA_setA_ne (fun hEq2 => hh hEq2.symm)] at hr2
            exact absurd hEq (hB h r hr2)

/-- C5: creating a pending-verification record supersedes the subject's
prior record in both flows.  For the phone flow (subject = profileId) and
the email flow (subject = normalized email, when `request` succeeds):
the map consistency invariant is preserved — so at most one record per
subject stays active —, the fresh token resolves to the fresh record, any
previously indexed token of the subject no longer resolves, and every
record of the subject is keyed by the fresh token hash. -/
theorem createPending_supersedes_subject (pst : PhoneState)
    (profileId provider providerSub ptokenClear : String)
    (ptokenExpiresAt : Int) (hpInv : PhoneInv pst)
    (hpfresh : lookupA pst.pendingByToken (modelHash ptokenClear) = none)
    (est est' : EmailState) (emailRaw etokenClear : String)
    (etokenExpiresAt : Int) (ecodeClear : String) (enow : Int)
    (heInv : EmailInv est)
    (hefresh : lookupA est.pendingByToken (modelHash etokenClear) = none)
    (hok : emailRequest est emailRaw etokenClear etokenExpiresAt ecodeClear
      enow = (est', Except.ok (etokenClear, etokenExpiresAt))) :
    (PhoneInv (phoneCreatePending pst profileId provider providerSub
        ptokenClear ptokenExpiresAt).1 ∧
      lookupA (phoneCreatePending pst profileId provider providerSub
          ptokenClear ptokenExpiresAt).1.pendingByToken
          (modelHash ptokenClear) =
        some (phoneNewRecord profileId provider providerSub ptokenClear
          ptokenExpiresAt) ∧
      (∀ h, lookupA pst.profileIndex profileId = some h →
        lookupA (phoneCreatePending pst profileId provider providerSub
          ptokenClear ptokenExpiresAt).1.pendingByToken h = none) ∧
      (∀ h r, lookupA (phoneCreatePending pst profileId provider
          providerSub ptokenClear ptokenExpiresAt).1.pendingByToken h =
          some r → r.profileId = profileId → h = modelHash ptokenClear)) ∧
    (EmailInv est' ∧
      lookupA est'.pendingByToken (modelHash etokenClear) =
        some (emailNewRecord (normalizeEmail emailRaw) etokenClear
          etokenExpiresAt ecodeClear enow) ∧
      (∀ h, lookupA est.emailIndex (normalizeEmail emailRaw) = some h →
        lookupA est'.pendingByToken h = none) ∧
      (∀ h r, lookupA est'.pendingByToken h = some r →
        r.email = normalizeEmail emailRaw → h = modelHash etokenClear)) :=
  ⟨phoneCreatePending_supersedes pst profileId provider providerSub
      ptokenClear ptokenExpiresAt hpInv hpfresh,
   emailRequest_supersedes est est' emailRaw etokenClear etokenExpiresAt
      ecodeClear enow heInv hefresh hok⟩

theorem createPending_supersedes_subject_witness :
    (PhoneInv (phoneCreatePending
        { pendingByToken := [], profileIndex := [], codeCache := [] } "p1"
        "local" "p1" "ptok" 600000).1 ∧
      lookupA (phoneCreatePending
          { pendingByToken := [], profileIndex := [], codeCache := [] }
          "p1" "local" "p1" "ptok" 600000).1.pendingByToken
          (modelHash "ptok") =
        some (phoneNewRecord "p1" "local" "p1" "ptok" 600000) ∧
      (∀ h, lookupA ([] : List (String × String)) "p1" = some h →
        lookupA (phoneCreatePending
          { pendingByToken := [], profileIndex := [], codeCache := [] }
          "p1" "local" "p1" "ptok" 600000).1.pendingByToken h = none) ∧
      (∀ h r, lookupA (phoneCreatePending
          { pendingByToken := [], profileIndex := [], codeCache := [] }
          "p1" "local" "p1" "ptok" 600000).1.pendingByToken h = some r →
          r.profileId = "p1" → h = modelHash "ptok")) ∧
    (EmailInv emailStEx0 ∧
      lookupA emailStEx0.pendingByToken (modelHash "etok") =
        some (emailNewRecord (normalizeEmail " A@B.com ") "etok" 600000
          "54321" 0) ∧
      (∀ h, lookupA ([] : List (String × String))
          (normalizeEmail " A@B.com ") = some h →
        lookupA emailStEx0.pendingByToken h = none) ∧
      (∀ h r, lookupA emailStEx0.pendingByToken h = some r →
        r.email = normalizeEmail " A@B.com " → h = modelHash "etok")) :=
  createPending_supersedes_subject
    { pendingByToken := [], profileIndex := [], codeCache := [] } "p1"
    "local" "p1" "ptok" 600000
    ⟨fun h r hr => by simp [lookupA] at hr,
     fun p h hp => by simp [lookupA] at hp⟩ rfl
    { pendingByToken := [], emailIndex := [], registerIndex := [],
      resetIndex := [] } emailStEx0 " A@B.com " "etok" 600000 "54321" 0
    ⟨fun h r hr => by simp [lookupA] at hr,
     fun e h hp => by simp [lookupA] at hp⟩ rfl (by decide)

/-! ## Identity-token decoding (src/auth/auth.service.ts
`decodeIdTokenUnsafe` / `externalProviderLogin`, with
src/common/utils/base64url.ts)

The external collaborators `JSON.parse`, base64 decoding
(`Buffer.from(..., 'base64')`) and UTF-8 decoding are embedded as
executable functions over character and byte lists. -/

/-- The two brace characters (written by code point). -/
def lbraceC : Char := Char.ofNat 123

/-- Closing brace. -/
def rbraceC : Char := Char.ofNat 125

/-- JSON whitespace. -/
def isJsonWs (c : Char) : Bool :=
  c == ' ' || c == '\t' || c == '\n' || c == '\r'

/-- Drop leading JSON whitespace. -/
def skipWs : List Char → List Char
  | [] => []
  | c :: rest => if isJsonWs c then skipWs rest else c :: rest

/-- JSON values as `JSON.parse` produces them; a number is
`mantissa * 10 ^ exp10` (exact). -/
inductive Json where
  | jnull
  | jbool (b : Bool)
  | jnum (mantissa : Int) (exp10 : Int)
  | jstr (s : String)
  | jarr (elems : List Json)
  | jobj (fields : List (String × Json))

/-- Hexadecimal digit value. -/
def hexVal (c : Char) : Option Nat :=
  if '0' ≤ c ∧ c ≤ '9' then some (c.toNat - 48)
  else if 'a' ≤ c ∧ c ≤ 'f' then some (c.toNat - 87)
  else if 'A' ≤ c ∧ c ≤ 'F' then some (c.toNat - 55)
  else none

/-- Body of a JSON string after the opening quote: returns the decoded
characters and the input following the closing quote. -/
def parseStrBody : Nat → List Char → Option (List Char × List Char)
  | 0, _ => none
  | Nat.succ fuel, cs =>
    match cs with
    | [] => none
    | c :: rest =>
      if c == '"' then some ([], rest)
      else if c == '\\' then
        match rest with
        | [] => none
        | e :: rest2 =>
          if e == 'u' then
            match rest2 with
            | h1 :: h2 :: h3 :: h4 :: rest3 =>
              match hexVal h1, hexVal h2, hexVal h3, hexVal h4 with
              | some v1, some v2, some v3, some v4 =>
                  (parseStrBody fuel rest3).map
                    (fun p =>
                      (Char.ofNat (((v1 * 16 + v2) * 16 + v3) * 16 + v4) ::
                        p.1, p.2))
              | _, _, _, _ => none
            | _ => none
          else
            let decoded : Option Char :=
              if e == '"' then some '"'
              else if e == '\\' then some '\\'
              else if e == '/' then some '/'
              else if e == 'b' then some (Char.ofNat 8)
              else if e == 'f' then some (Char.ofNat 12)
              else if e == 'n' then some '\n'
              else if e == 'r' then some '\r'
              else if e == 't' then some '\t'
              else none
            match decoded with
            | some d =>
                (parseStrBody fuel rest2).map (fun p => (d :: p.1, p.2))
            | none => none
      else (parseStrBody fuel rest).map (fun p => (c :: p.1, p.2))

/-- Digit list to natural number. -/
def digitsToNat (ds : List Char) : Nat :=
  ds.foldl (fun acc c => acc * 10 + (c.toNat - 48)) 0

/-- Optional fraction part `.digits`. -/
def parseFrac (cs : List Char) : Option (List Char × List Char) :=
  match cs with
  | c :: rest =>
      if c == '.' then
        let ds := rest.takeWhile Char.isDigit
        if ds.length = 0 then none else some (ds, rest.drop ds.length)
      else some ([], cs)
  | [] => some ([], cs)

/-- Optional exponent part `e[+-]digits`. -/
def parseExp (cs : List Char) : Option (Int × List Char) :=
  match cs with
  | c :: rest =>
      if c == 'e' || c == 'E' then
        match rest with
        | s :: rest2 =>
            if s == '+' then
              let ds := rest2.takeWhile Char.isDigit
              if ds.length = 0 then none
              else some ((digitsToNat ds : Int), rest2.drop ds.length)
            else if s == '-' then
              let ds := rest2.takeWhile Char.isDigit
              if ds.length = 0 then none
              else some (-(digitsToNat ds : Int), rest2.drop ds.length)
            else
              let ds := rest.takeWhile Char.isDigit
              if ds.length = 0 then none
              else some ((digitsToNat ds : Int), rest.drop ds.length)
        | [] => none
      else some (0, cs)
  | [] => some (0, cs)

/-- A JSON number. -/
def parseNumber (cs : List Char) : Option (Json × List Char) :=
  let rest1 :=
    match cs with
    | c :: rest => if c == '-' then (true, rest) else (false, cs)
    | [] => (false, cs)
  let intDs := rest1.2.takeWhile Char.isDigit
  if intDs.length = 0 then none
  else
    match parseFrac (rest1.2.drop intDs.length) with
    | none => none
    | some (fracDs, cs3) =>
      match parseExp cs3 with
      | none => none
      | some (expVal, cs4) =>
        let mag : Int := (digitsToNat (intDs ++ fracDs) : Int)
        some (Json.jnum (if rest1.1 then -mag else mag)
          (expVal - (fracDs.length : Int)), cs4)

/-- A JSON value, by fuel-bounded recursive descent.  Objects and arrays
parse their first member and then re-enter `parseVal` on the remainder
with the opening bracket re-synthesised, rejecting trailing commas. -/
def parseVal : Nat → List Char → Option (Json × List Char)
  | 0, _ => none
  | Nat.succ fuel, cs =>
    match skipWs cs with
    | [] => none
    | c :: rest =>
      if c == '"' then
        (parseStrBody fuel rest).map
          (fun p => (Json.jstr (String.mk p.1), p.2))
      else if c == lbraceC then
        match skipWs rest with
        | c2 :: rest2 =>
          if c2 == rbraceC then some (Json.jobj [], rest2)
          else if c2 == '"' then
            match parseStrBody fuel rest2 with
            | some (key, rest3) =>
              match skipWs rest3 with
              | c3 :: rest4 =>
                if c3 == ':' then
                  match parseVal fuel rest4 with
                  | some (v, rest5) =>
                    match skipWs rest5 with
                    | c4 :: rest6 =>
                      if c4 == rbraceC then
                        some (Json.jobj [(String.mk key, v)], rest6)
                      else if c4 == ',' then
                        match skipWs rest6 with
                        | c5 :: _ =>
                          if c5 == rbraceC then none
                          else
                            match parseVal fuel (lbraceC :: rest6) with
                            | some (Json.jobj fields, rest7) =>
                                some (Json.jobj
                                  ((String.mk key, v) :: fields), rest7)
                            | _ => none
                        | [] => none
                      else none
                    | [] => none
                  | none => none
                else none
              | [] => none
            | none => none
          else none
        | [] => none
      else if c == '[' then
        match skipWs rest with
        | c2 :: _ =>
          if c2 == ']' then some (Json.jarr [], (skipWs rest).drop 1)
          else
            match parseVal fuel rest with
            | some (v, rest3) =>
              match skipWs rest3 with
              | c3 :: rest4 =>
                if c3 == ']' then some (Json.jarr [v], rest4)
                else if c3 == ',' then
                  match skipWs rest4 with
                  | c5 :: _ =>
                    if c5 == ']' then none
                    else
                      match parseVal fuel ('[' :: rest4) with
                      | some (Json.jarr elems, rest5) =>
                          some (Json.jarr (v :: elems), rest5)
                      | _ => none
                  | [] => none
                else none
              | [] => none
            | none => none
        | [] => none
      else if c == 't' then
        if rest.take 3 = ['r', 'u', 'e'] then
          some (Json.jbool true, rest.drop 3)
        else none
      else if c == 'f' then
        if rest.take 4 = ['a', 'l', 's', 'e'] then
          some (Json.jbool false, rest.drop 4)
        else none
      else if c == 'n' then
        if rest.take 3 = ['u', 'l', 'l'] then
          some (Json.jnull, rest.drop 3)
        else none
      else parseNumber (c :: rest)

/-- `JSON.parse`: a complete value with nothing but whitespace after
it. -/
def jsonParse (s : String) : Option Json :=
  match parseVal (s.length * 2 + 16) s.data with
  | some (v, rest) => if (skipWs rest).isEmpty then some v else none
  | none => none

/-- Base64 alphabet value of a character. -/
def b64CharVal (c : Char) : Option Nat :=
  if 'A' ≤ c ∧ c ≤ 'Z' then some (c.toNat - 65)
  else if 'a' ≤ c ∧ c ≤ 'z' then some (c.toNat - 71)
  else if '0' ≤ c ∧ c ≤ '9' then some (c.toNat + 4)
  else if c == '+' then some 62
  else if c == '/' then some 63
  else none

/-- Fold 6-bit groups into bytes (`Buffer.from(..., 'base64')` core;
non-alphabet characters, padding included, are ignored). -/
def b64Go : List Nat → Nat → Nat → List Nat
  | [], _, _ => []
  | v :: rest, acc, bits =>
    let acc2 := acc * 64 + v
    let bits2 := bits + 6
    if bits2 ≥ 8 then
      (acc2 / 2 ^ (bits2 - 8)) % 256 ::
        b64Go rest (acc2 % 2 ^ (bits2 - 8)) (bits2 - 8)
    else b64Go rest acc2 bits2

/-- Byte list of a base64 string. -/
def base64ToBytes (s : String) : List Nat :=
  b64Go (s.data.filterMap b64CharVal) 0 0

/-- The Unicode replacement character. -/
def replChar : Char := Char.ofNat 65533

/-- UTF-8 decoding of a byte list (`buffer.toString('utf8')`), with the
replacement character on malformed sequences. -/
def utf8Go : Nat → List Nat → List Char
  | 0, _ => []
  | Nat.succ fuel, bytes =>
    match bytes with
    | [] => []
    | b :: rest =>
      if b < 128 then Char.ofNat b :: utf8Go fuel rest
      else if 192 ≤ b ∧ b < 224 then
        match rest with
        | b2 :: rest2 =>
          if 128 ≤ b2 ∧ b2 < 192 then
            Char.ofNat ((b - 192) * 64 + (b2 - 128)) :: utf8Go fuel rest2
          else replChar :: utf8Go fuel rest
        | [] => [replChar]
      else if 224 ≤ b ∧ b < 240 then
        match rest with
        | b2 :: b3 :: rest3 =>
          if (128 ≤ b2 ∧ b2 < 192) ∧ (128 ≤ b3 ∧ b3 < 192) then
            Char.ofNat (((b - 224) * 64 + (b2 - 128)) * 64 + (b3 - 128)) ::
              utf8Go fuel rest3
          else replChar :: utf8Go fuel rest
        | _ => [replChar]
      else if 240 ≤ b ∧ b < 248 then
        match rest with
        | b2 :: b3 :: b4 :: rest4 =>
          if (128 ≤ b2 ∧ b2 < 192) ∧ (128 ≤ b3 ∧ b3 < 192) ∧
              (128 ≤ b4 ∧ b4 < 192) then
            Char.ofNat
                ((((b - 240) * 64 + (b2 - 128)) * 64 + (b3 - 128)) * 64 +
                  (b4 - 128)) :: utf8Go fuel rest4
          else replChar :: utf8Go fuel rest
        | _ => [replChar]
      else replChar :: utf8Go fuel rest

/-- `base64UrlDecode` (src/common/utils/base64url.ts): map the URL-safe
alphabet back, pad to a multiple of four, base64-decode, read as
UTF-8. -/
def base64UrlDecode (input : String) : String :=
  let base64 :=
    String.mk (input.data.map
      (fun c => if c == '-' then '+' else if c == '_' then '/' else c))
  let padded :=
    if base64.length % 4 = 0 then base64
    else base64 ++ String.mk (List.replicate (4 - base64.length % 4) '=')
  let bytes := base64ToBytes padded
  String.mk (utf8Go (bytes.length + 1) bytes)

/-- JavaScript `idToken.split('.')`, over characters. -/
def splitOnDot : List Char → List (List Char)
  | [] => [[]]
  | c :: rest =>
    let r := splitOnDot rest
    if c == '.' then [] :: r
    else
      match r with
      | s :: ss => (c :: s) :: ss
      | [] => [[c]]

/-- `trimmed.lastIndexOf('\x7d')`: index of the last closing brace. -/
def lastBraceIdx (cs : List Char) : Option Nat :=
  match cs.reverse.findIdx? (fun c => c == rbraceC) with
  | some i => some (cs.length - 1 - i)
  | none => none

/-- `decodeIdTokenUnsafe`: split on dots, base64url-decode the second
segment, `JSON.parse` it; on failure trim, truncate to the last closing
brace and retry; otherwise reject. -/
def decodeIdTokenUnsafe (idToken : String) (provider : Option String) :
    Except String Json :=
  let parts := splitOnDot idToken.data
  if parts.length < 2 then Except.error "Formato de id_token inválido."
  else
    let payloadJson := base64UrlDecode (String.mk (parts.getD 1 []))
    match jsonParse payloadJson with
    | some v => Except.ok v
    | none =>
      let trimmed := jsTrim payloadJson
      let label :=
        match provider with
        | some p => if p = "" then "" else " do " ++ p
        | none => ""
      match lastBraceIdx trimmed.data with
      | some lastBrace =>
        match jsonParse (String.mk (trimmed.data.take (lastBrace + 1))) with
        | some v => Except.ok v
        | none =>
          Except.error
            ("Claims inválidas" ++ label ++ ": formato JSON inesperado.")
      | none =>
        Except.error
          ("Claims inválidas" ++ label ++ ": formato JSON inesperado.")

/-- Property access `claims?.[key]` on a decoded value. -/
def getField (j : Json) (key : String) : Option Json :=
  match j with
  | Json.jobj fields => lookupA fields key
  | _ => none

/-- JavaScript truthiness of `claims?.[key]`. -/
def jsTruthy (j : Option Json) : Bool :=
  match j with
  | none => false
  | some Json.jnull => false
  | some (Json.jbool b) => b
  | some (Json.jnum mantissa _) => mantissa != 0
  | some (Json.jstr s) => s != ""
  | some (Json.jarr _) => true
  | some (Json.jobj _) => true

/-- The start of `externalProviderLogin`: decode the id_token and reject
claims without a truthy `email` and `sub`. -/
def externalProviderDecode (provider idToken : String) :
    Except String Json :=
  match decodeIdTokenUnsafe idToken (some provider) with
  | Except.error e => Except.error e
  | Except.ok claims =>
    if !jsTruthy (getField claims "email") ||
        !jsTruthy (getField claims "sub") then
      Except.error ("Claims inválidas do " ++ provider ++ ".")
    else Except.ok claims

/-- C9 counterexample: an id_token whose decoded payload is the valid
claims object (with email and sub) followed by the trailing garbage
character `\x7d`.  Truncating to the LAST closing brace keeps the
garbage, the retry parse fails, and the decoder rejects — the claimed
"succeeds on valid JSON plus trailing garbage" does not hold for this
garbage. -/
theorem decodeIdTokenUnsafe_garbage_brace :
    base64UrlDecode "eyJlbWFpbCI6ImEiLCJzdWIiOiJiIn19" =
      "\x7b\"email\":\"a\",\"sub\":\"b\"\x7d\x7d" ∧
    jsonParse "\x7b\"email\":\"a\",\"sub\":\"b\"\x7d" =
      some (Json.jobj [("email", Json.jstr "a"), ("sub", Json.jstr "b")]) ∧
    decodeIdTokenUnsafe "h.eyJlbWFpbCI6ImEiLCJzdWIiOiJiIn19"
        (some "google") =
      Except.error "Claims inválidas do google: formato JSON inesperado." ∧
    externalProviderDecode "google" "h.eyJlbWFpbCI6ImEiLCJzdWIiOiJiIn19" =
      Except.error "Claims inválidas do google: formato JSON inesperado." :=
  ⟨rfl, rfl, rfl, rfl⟩

/-- C9 amended: fewer than two dot-separated segments are rejected with
a client error; a payload that parses as JSON directly is accepted; when
the direct parse fails, the decoder succeeds exactly when the trimmed
payload truncated at its last closing brace parses (so trailing garbage
is tolerated when that truncation is valid JSON, e.g. when the garbage
holds no closing brace); and the provider login rejects decoded claims
missing the email or sub field. -/
theorem decodeIdTokenUnsafe_spec :
    (∀ idToken provider, (splitOnDot (String.data idToken)).length < 2 →
      decodeIdTokenUnsafe idToken provider =
        Except.error "Formato de id_token inválido.") ∧
    (∀ idToken provider v,
      2 ≤ (splitOnDot (String.data idToken)).length →
      jsonParse (base64UrlDecode
        (String.mk ((splitOnDot (String.data idToken)).getD 1 []))) =
        some v →
      decodeIdTokenUnsafe idToken provider = Except.ok v) ∧
    (∀ idToken provider k v,
      2 ≤ (splitOnDot (String.data idToken)).length →
      jsonParse (base64UrlDecode
        (String.mk ((splitOnDot (String.data idToken)).getD 1 []))) =
        none →
      lastBraceIdx (jsTrim (base64UrlDecode
        (String.mk ((splitOnDot (String.data idToken)).getD 1 [])))).data =
        some k →
      jsonParse (String.mk ((jsTrim (base64UrlDecode
        (String.mk ((splitOnDot (String.data idToken)).getD 1
          [])))).data.take (k + 1))) = some v →
      decodeIdTokenUnsafe idToken provider = Except.ok v) ∧
    (∀ provider idToken claims,
      decodeIdTokenUnsafe idToken (some provider) = Except.ok claims →
      (getField claims "email" = none ∨ getField claims "sub" = none) →
      externalProviderDecode provider idToken =
        Except.error ("Claims inválidas do " ++ provider ++ ".")) := by
  refine ⟨?_, ?_, ?_, ?_⟩
  · intro idToken provider h
    simp [decodeIdTokenUnsafe, h]
  · intro idToken provider v h hparse
    have hn : ¬ (splitOnDot (String.data idToken)).length < 2 :=
      Nat.not_lt.mpr h
    simp only [List.getD_eq_getElem?_getD] at hparse
    simp [decodeIdTokenUnsafe, hn, hparse]
  · intro idToken provider k v h hnone hbrace htrunc
    have hn : ¬ (splitOnDot (String.data idToken)).length < 2 :=
      Nat.not_lt.mpr h
    simp only [List.getD_eq_getElem?_getD] at hnone hbrace htrunc
    simp [decodeIdTokenUnsafe, hn, hnone, hbrace, htrunc]
  · intro provider idToken claims hdec hmiss
    rcases hmiss with hf | hf <;>
      simp [externalProviderDecode, hdec, hf, jsTruthy]

theorem decodeIdTokenUnsafe_spec_witness :
    decodeIdTokenUnsafe "abc" (some "google") =
      Except.error "Formato de id_token inválido." ∧
    decodeIdTokenUnsafe "h.eyJlbWFpbCI6ImEiLCJzdWIiOiJiIn0"
        (some "google") =
      Except.ok (Json.jobj [("email", Json.jstr "a"),
        ("sub", Json.jstr "b")]) ∧
    decodeIdTokenUnsafe "h.eyJlbWFpbCI6ImEiLCJzdWIiOiJiIn0geHl6"
        (some "google") =
      Except.ok (Json.jobj [("email", Json.jstr "a"),
        ("sub", Json.jstr "b")]) ∧
    externalProviderDecode "google" "h.eyJlbWFpbCI6ImEifQ" =
      Except.error "Claims inválidas do google." :=
  ⟨decodeIdTokenUnsafe_spec.1 "abc" (some "google") (by decide),
   decodeIdTokenUnsafe_spec.2.1 "h.eyJlbWFpbCI6ImEiLCJzdWIiOiJiIn0"
     (some "google") (Json.jobj [("email", Json.jstr "a"),
       ("sub", Json.jstr "b")]) (by decide) rfl,
   decodeIdTokenUnsafe_spec.2.2.1 "h.eyJlbWFpbCI6ImEiLCJzdWIiOiJiIn0geHl6"
     (some "google") 22 (Json.jobj [("email", Json.jstr "a"),
       ("sub", Json.jstr "b")]) (by decide) rfl rfl rfl,
   decodeIdTokenUnsafe_spec.2.2.2 "google" "h.eyJlbWFpbCI6ImEifQ"
     (Json.jobj [("email", Json.jstr "a")]) rfl (Or.inr rfl)⟩
